import Mathlib

namespace SLVTracker

/-!
SLV-Tracker: expiry scheduling and premium estimation

A shallow embedding of the core of `src/server.js`:

* `getNextMonthlyExpiry` (third Friday of the month after the current one) together with
  the part of the ECMAScript `Date` object it relies on;
* `calculatePremium` (Black–Scholes call price with an Abramowitz–Stegun normal CDF);
* the arithmetic that the `/api/status` and `POST /api/calls` routes perform around them.
-/

/-! ## ECMAScript time values

A `Date` object holds a time value: an integer number of milliseconds since
1970-01-01T00:00:00Z.  The functions below are the abstract operations of the
ECMAScript specification ("Time Values and Time Range" and following sections),
with the same names.  The local time zone is a fixed offset `tz` in milliseconds
(local time minus UTC); daylight-saving transitions are not modelled. -/

/-- Milliseconds in one day. -/
def msPerDay : Int := 86400000

/-- Day number of a time value (floor division). -/
def Day (t : Int) : Int := t / msPerDay

/-- Milliseconds elapsed since the start of the day. -/
def TimeWithinDay (t : Int) : Int := t % msPerDay

/-- Number of days in year `y` of the proleptic Gregorian calendar. -/
def DaysInYear (y : Int) : Int :=
  if y % 4 ≠ 0 then 365
  else if y % 100 ≠ 0 then 366
  else if y % 400 ≠ 0 then 365
  else 366

/-- Day number of the first day of year `y`. -/
def DayFromYear (y : Int) : Int :=
  365 * (y - 1970) + (y - 1969) / 4 - (y - 1901) / 100 + (y - 1601) / 400

/-- Leap-day indicator of a year: 1 in a leap year, 0 otherwise. -/
def InLeapYear (y : Int) : Int := if DaysInYear y = 366 then 1 else 0

/-- The year containing time value `t`: the largest `y` with `DayFromYear y ≤ Day t`.
It is computed from the mean-year estimate, which is off by at most one. -/
def YearFromTime (t : Int) : Int :=
  let d := Day t
  let y0 := 1970 + (400 * d) / 146097
  if d < DayFromYear y0 then y0 - 1
  else if DayFromYear (y0 + 1) ≤ d then y0 + 1
  else y0

/-- Zero-based day within the year of `t`. -/
def DayWithinYear (t : Int) : Int := Day t - DayFromYear (YearFromTime t)

/-- Zero-based day within the year on which month `m` (0 = January) starts;
`leap` is the leap-day indicator. -/
def monthStart (leap : Int) (m : Int) : Int :=
  if m ≤ 0 then 0
  else if m = 1 then 31
  else if m = 2 then 59 + leap
  else if m = 3 then 90 + leap
  else if m = 4 then 120 + leap
  else if m = 5 then 151 + leap
  else if m = 6 then 181 + leap
  else if m = 7 then 212 + leap
  else if m = 8 then 243 + leap
  else if m = 9 then 273 + leap
  else if m = 10 then 304 + leap
  else if m = 11 then 334 + leap
  else 365 + leap

/-- Month index (0 = January .. 11 = December) of the zero-based day `d` within a
year with leap-day indicator `leap`. -/
def monthOfDay (leap d : Int) : Int :=
  if d < 31 then 0
  else if d < 59 + leap then 1
  else if d < 90 + leap then 2
  else if d < 120 + leap then 3
  else if d < 151 + leap then 4
  else if d < 181 + leap then 5
  else if d < 212 + leap then 6
  else if d < 243 + leap then 7
  else if d < 273 + leap then 8
  else if d < 304 + leap then 9
  else if d < 334 + leap then 10
  else 11

/-- Month index (0 = January .. 11 = December) of time value `t`. -/
def MonthFromTime (t : Int) : Int :=
  monthOfDay (InLeapYear (YearFromTime t)) (DayWithinYear t)

/-- Day of the month (1-based) of time value `t`. -/
def DateFromTime (t : Int) : Int :=
  DayWithinYear t - monthStart (InLeapYear (YearFromTime t)) (MonthFromTime t) + 1

/-- Day of the week of time value `t`: 0 = Sunday .. 5 = Friday, 6 = Saturday. -/
def WeekDay (t : Int) : Int := (Day t + 4) % 7

/-- Local time of a UTC time value. -/
def LocalTime (tz t : Int) : Int := t + tz

/-- UTC time value of a local time. -/
def UTC (tz t : Int) : Int := t - tz

/-- Day number of (`year`, `month`, `date`); a month index outside 0..11 carries into
the year. -/
def MakeDay (year month date : Int) : Int :=
  let ym := year + month / 12
  let mn := month % 12
  DayFromYear ym + monthStart (InLeapYear ym) mn + date - 1

/-- Time value of a day number and a time within the day. -/
def MakeDate (day time : Int) : Int := day * msPerDay + time

/-! ## The `Date` object -/

/-- A JavaScript `Date`: its time value in UTC milliseconds. -/
structure JSDate where
  tv : Int
  deriving DecidableEq, Repr

/-- The constructor `new Date(year, month, date)`, which reads its arguments as local
time at midnight.  A year in 0..99 is read as 1900 + year. -/
def newDate (tz year month date : Int) : JSDate :=
  let yr := if 0 ≤ year ∧ year ≤ 99 then 1900 + year else year
  ⟨UTC tz (MakeDate (MakeDay yr month date) 0)⟩

/-- Method `getFullYear()`. -/
def JSDate.getFullYear (tz : Int) (d : JSDate) : Int := YearFromTime (LocalTime tz d.tv)

/-- Method `getMonth()`. -/
def JSDate.getMonth (tz : Int) (d : JSDate) : Int := MonthFromTime (LocalTime tz d.tv)

/-- Method `getDate()`. -/
def JSDate.getDate (tz : Int) (d : JSDate) : Int := DateFromTime (LocalTime tz d.tv)

/-- Method `getDay()`. -/
def JSDate.getDay (tz : Int) (d : JSDate) : Int := WeekDay (LocalTime tz d.tv)

/-- Method `setDate(n)`: replaces the day of the month, keeping the local time of day. -/
def JSDate.setDate (tz : Int) (d : JSDate) (n : Int) : JSDate :=
  let t := LocalTime tz d.tv
  ⟨UTC tz (MakeDate (MakeDay (YearFromTime t) (MonthFromTime t) n) (TimeWithinDay t))⟩

/-- The date part of `toISOString()`, that is `toISOString().split('T')[0]`, as the
triple (year, month 1..12, day) of the UTC calendar date. -/
def JSDate.isoDate (d : JSDate) : Int × Int × Int :=
  (YearFromTime d.tv, MonthFromTime d.tv + 1, DateFromTime d.tv)

/-! ## `getNextMonthlyExpiry` -/

/-- The variables of the scanning loop: the date being advanced and the Friday count. -/
structure LoopState where
  thirdFriday : JSDate
  fridays : Nat
  deriving DecidableEq, Repr

/-- The loop condition `thirdFriday.getDay() !== 5 || fridays < 3`. -/
def loopCond (tz : Int) (s : LoopState) : Bool :=
  s.thirdFriday.getDay tz != 5 || decide (s.fridays < 3)

/-- One execution of the loop body. -/
def loopBody (tz : Int) (s : LoopState) : LoopState :=
  let fridays := if s.thirdFriday.getDay tz = 5 then s.fridays + 1 else s.fridays
  let thirdFriday :=
    if fridays < 3 then s.thirdFriday.setDate tz (s.thirdFriday.getDate tz + 1)
    else s.thirdFriday
  ⟨thirdFriday, fridays⟩

/-- The `while` loop, allowed at most `fuel` executions of its body; `none` when the
condition still holds after that many. -/
def whileLoop (tz : Int) : Nat → LoopState → Option LoopState
  | fuel, s =>
    if loopCond tz s then
      match fuel with
      | 0 => none
      | n + 1 => whileLoop tz n (loopBody tz s)
    else some s

/-- The function `getNextMonthlyExpiry`, with the clock reading `now` and the zone
offset `tz` as explicit inputs. -/
def getNextMonthlyExpiry (fuel : Nat) (tz : Int) (now : JSDate) : Option JSDate :=
  let year := now.getFullYear tz
  let currentMonth := now.getMonth tz
  let nextMonth := currentMonth + 1
  let thirdFriday := newDate tz year nextMonth 1
  (whileLoop tz fuel ⟨thirdFriday, 0⟩).map (fun s => s.thirdFriday)

/-! ## JavaScript numbers

Numbers are modelled as real numbers extended with the IEEE 754 special values that
JavaScript arithmetic produces when an operation leaves the reals: the two infinities,
`NaN` and the negative zero.  Finite values are combined exactly: rounding, overflow
and underflow of the binary64 format are not modelled. -/

/-- A JavaScript number.  `fin 0` is the positive zero. -/
inductive JSNum where
  | fin (r : ℝ)
  | negZero
  | posInf
  | negInf
  | nan

namespace JSNum

/-- The sign bit: set for negative values, the negative zero and minus infinity. -/
def signBit : JSNum → Prop
  | fin r => r < 0
  | negZero => True
  | negInf => True
  | _ => False

/-- Either zero. -/
def isZero : JSNum → Prop
  | fin r => r = 0
  | negZero => True
  | _ => False

/-- Either infinity. -/
def isInf : JSNum → Prop
  | posInf => True
  | negInf => True
  | _ => False

/-- Not-a-number. -/
def isNaN : JSNum → Prop
  | nan => True
  | _ => False

/-- Neither an infinity nor `NaN`. -/
def isFinite : JSNum → Prop
  | fin _ => True
  | negZero => True
  | _ => False

noncomputable instance decidableSignBit (x : JSNum) : Decidable x.signBit :=
  Classical.propDecidable _

noncomputable instance decidableIsZero (x : JSNum) : Decidable x.isZero :=
  Classical.propDecidable _

noncomputable instance decidableIsInf (x : JSNum) : Decidable x.isInf :=
  Classical.propDecidable _

noncomputable instance decidableIsNaN (x : JSNum) : Decidable x.isNaN :=
  Classical.propDecidable _

/-- The real value of a finite number (0 for the others). -/
noncomputable def toReal : JSNum → ℝ
  | fin r => r
  | _ => 0

/-- The value as an extended real, for comparisons (`NaN` is never compared). -/
noncomputable def toEReal : JSNum → EReal
  | fin r => (r : EReal)
  | posInf => ⊤
  | negInf => ⊥
  | _ => 0

/-- A zero with the given sign. -/
noncomputable def signedZero (negative : Prop) [Decidable negative] : JSNum := if negative then negZero else fin 0

/-- An infinity with the given sign. -/
noncomputable def signedInf (negative : Prop) [Decidable negative] : JSNum := if negative then negInf else posInf

/-- Unary minus. -/
noncomputable def neg : JSNum → JSNum
  | fin r => if r = 0 then negZero else fin (-r)
  | negZero => fin 0
  | posInf => negInf
  | negInf => posInf
  | nan => nan

/-- Addition. -/
noncomputable def add : JSNum → JSNum → JSNum
  | nan, _ => nan
  | _, nan => nan
  | posInf, negInf => nan
  | negInf, posInf => nan
  | posInf, _ => posInf
  | _, posInf => posInf
  | negInf, _ => negInf
  | _, negInf => negInf
  | negZero, negZero => negZero
  | negZero, fin b => fin b
  | fin a, negZero => fin a
  | fin a, fin b => fin (a + b)

/-- Subtraction. -/
noncomputable def sub (a b : JSNum) : JSNum := add a (neg b)

/-- Multiplication. -/
noncomputable def mul (a b : JSNum) : JSNum :=
  if a.isNaN ∨ b.isNaN then nan
  else if (a.isInf ∧ b.isZero) ∨ (a.isZero ∧ b.isInf) then nan
  else if a.isInf ∨ b.isInf then signedInf (Xor' a.signBit b.signBit)
  else if a.toReal * b.toReal = 0 then signedZero (Xor' a.signBit b.signBit)
  else fin (a.toReal * b.toReal)

/-- Division. -/
noncomputable def div (a b : JSNum) : JSNum :=
  if a.isNaN ∨ b.isNaN then nan
  else if (a.isInf ∧ b.isInf) ∨ (a.isZero ∧ b.isZero) then nan
  else if a.isInf ∨ b.isZero then signedInf (Xor' a.signBit b.signBit)
  else if b.isInf ∨ a.isZero then signedZero (Xor' a.signBit b.signBit)
  else fin (a.toReal / b.toReal)

noncomputable instance : Neg JSNum := ⟨neg⟩
noncomputable instance : Add JSNum := ⟨add⟩
noncomputable instance : Sub JSNum := ⟨sub⟩
noncomputable instance : Mul JSNum := ⟨mul⟩
noncomputable instance : Div JSNum := ⟨div⟩

/-- The comparison `a < b`; false when either side is `NaN`. -/
def lt (a b : JSNum) : Prop := ¬ a.isNaN ∧ ¬ b.isNaN ∧ a.toEReal < b.toEReal

noncomputable instance decidableLt (a b : JSNum) : Decidable (lt a b) :=
  Classical.propDecidable _

/-- The exponentiation `x ** 2`. -/
noncomputable def sq (x : JSNum) : JSNum := x * x

/-- Function `Math.abs`. -/
noncomputable def abs : JSNum → JSNum
  | fin r => fin |r|
  | negZero => fin 0
  | posInf => posInf
  | negInf => posInf
  | nan => nan

/-- Function `Math.max` on two arguments; the positive zero counts as larger than the
negative zero. -/
noncomputable def max (a b : JSNum) : JSNum :=
  if a.isNaN ∨ b.isNaN then nan
  else if lt a b then b
  else if lt b a then a
  else if a.signBit then b
  else a

/-- Function `Math.sqrt`. -/
noncomputable def sqrt : JSNum → JSNum
  | fin r => if r < 0 then nan else fin (Real.sqrt r)
  | negZero => negZero
  | posInf => posInf
  | negInf => nan
  | nan => nan

/-- Function `Math.log`. -/
noncomputable def log : JSNum → JSNum
  | fin r => if r < 0 then nan else if r = 0 then negInf else fin (Real.log r)
  | negZero => negInf
  | posInf => posInf
  | negInf => nan
  | nan => nan

/-- Function `Math.exp`. -/
noncomputable def exp : JSNum → JSNum
  | fin r => fin (Real.exp r)
  | negZero => fin 1
  | posInf => posInf
  | negInf => fin 0
  | nan => nan

/-- Function `Math.ceil`. -/
noncomputable def ceil : JSNum → JSNum
  | fin r => if r ≤ -1 ∨ 0 ≤ r then fin (⌈r⌉ : ℤ) else negZero
  | x => x

end JSNum

open JSNum

/-! ## `calculatePremium` -/

/-- The inner function `N` of `calculatePremium`: the standard normal distribution
function through the Abramowitz–Stegun approximation of the error function. -/
noncomputable def N (x : JSNum) : JSNum :=
  let a1 := fin 0.254829592
  let a2 := fin (-0.284496736)
  let a3 := fin 1.421413741
  let a4 := fin (-1.453152027)
  let a5 := fin 1.061405429
  let p := fin 0.3275911
  let sign := if lt x (fin 0) then fin (-1) else fin 1
  let x := JSNum.abs x / JSNum.sqrt (fin 2)
  let t := fin 1.0 / (fin 1.0 + p * x)
  let y := fin 1.0 - (((((a5 * t + a4) * t) + a3) * t + a2) * t + a1) * t * JSNum.exp (-x * x)
  fin 0.5 * (fin 1.0 + sign * y)

/-- The quantity `timeToExpiry` of `calculatePremium`. -/
noncomputable def timeToExpiry (daysToExpiry : JSNum) : JSNum := daysToExpiry / fin 365

/-- The divisor `impliedVolatility * Math.sqrt(timeToExpiry)` of `d1`. -/
noncomputable def d1Divisor (impliedVolatility daysToExpiry : JSNum) : JSNum :=
  impliedVolatility * JSNum.sqrt (timeToExpiry daysToExpiry)

/-- The function `calculatePremium`; volatility `none` stands for an omitted fourth
argument, which takes the default 0.30. -/
noncomputable def calculatePremium (currentPrice strikePrice daysToExpiry : JSNum)
    (volatility : Option JSNum) : JSNum :=
  let impliedVolatility := volatility.getD (fin 0.30)
  let timeToExpiry := timeToExpiry daysToExpiry
  let riskFreeRate := fin 0.05
  let d1 := (JSNum.log (currentPrice / strikePrice)
      + (riskFreeRate + fin 0.5 * JSNum.sq impliedVolatility) * timeToExpiry)
    / d1Divisor impliedVolatility daysToExpiry
  let d2 := d1 - impliedVolatility * JSNum.sqrt timeToExpiry
  let callPrice := currentPrice * N d1 - strikePrice * JSNum.exp (-riskFreeRate * timeToExpiry) * N d2
  JSNum.max callPrice (fin 0)

/-! ## The routes -/

/-- The function `getCurrentPrice`: the close of the last price bar, or 0 when there is
none or when it is falsy (zero or `NaN`).  The argument is the list of closes that
`fetchSLVPrices(1)` resolved to. -/
noncomputable def getCurrentPrice (closes : List JSNum) : JSNum :=
  match closes.getLast? with
  | none => fin 0
  | some c => if c.isZero ∨ c.isNaN then fin 0 else c

/-- The expression `Math.ceil((nextExpiry - new Date()) / (1000 * 60 * 60 * 24))` of both
routes; `now` is the clock reading taken by the route. -/
noncomputable def daysToExpiry (nextExpiry now : JSDate) : JSNum :=
  JSNum.ceil ((fin (nextExpiry.tv : ℝ) - fin (now.tv : ℝ)) / (fin 1000 * fin 60 * fin 60 * fin 24))

/-- The fields of the `/api/status` response that the route computes (the price chart
rows read from the database are left out). -/
structure StatusResponse where
  currentPrice : JSNum
  strikePrice : JSNum
  estimatedPremium : JSNum
  premiumPct : JSNum
  estimatedIncome : JSNum
  sharesOwned : JSNum
  daysToExpiry : JSNum
  nextExpiry : Int × Int × Int
  totalIncome : JSNum
  annualizedReturn : JSNum

/-- The handler of `GET /api/status`.  Its inputs are what it reads from its
collaborators: the closes of the fetched price bars, the two settings, the summed income
of the closed calls, and the two clock readings (`now` inside `getNextMonthlyExpiry`,
`now2` in the handler). -/
noncomputable def apiStatus (fuel : Nat) (tz : Int) (now now2 : JSDate) (closes : List JSNum)
    (sharesOwned premiumPct totalIncome : JSNum) : Option StatusResponse :=
  let currentPrice := getCurrentPrice closes
  match getNextMonthlyExpiry fuel tz now with
  | none => none
  | some nextExpiry =>
    let daysToExpiry := daysToExpiry nextExpiry now2
    let strikePrice := currentPrice * (fin 1 + premiumPct / fin 100)
    let estimatedPremium := calculatePremium currentPrice strikePrice daysToExpiry none
    let estimatedIncome := estimatedPremium * sharesOwned
    some
      { currentPrice := currentPrice
        strikePrice := strikePrice
        estimatedPremium := estimatedPremium
        premiumPct := premiumPct
        estimatedIncome := estimatedIncome
        sharesOwned := sharesOwned
        daysToExpiry := daysToExpiry
        nextExpiry := nextExpiry.isoDate
        totalIncome := totalIncome
        annualizedReturn := totalIncome / (currentPrice * sharesOwned) * fin 12 }

/-- The row that `POST /api/calls` inserts into the `calls` table. -/
structure CallRow where
  strike_date : Int × Int × Int
  strike_price : JSNum
  current_price : JSNum
  premium : JSNum
  premium_pct : JSNum
  shares : JSNum
  income : JSNum
  expires : Int × Int × Int

/-- The handler of `POST /api/calls`, up to the row it inserts. -/
noncomputable def apiCalls (fuel : Nat) (tz : Int) (now now2 : JSDate) (closes : List JSNum)
    (sharesOwned premiumPct : JSNum) : Option CallRow :=
  let currentPrice := getCurrentPrice closes
  match getNextMonthlyExpiry fuel tz now with
  | none => none
  | some nextExpiry =>
    let daysToExpiry := daysToExpiry nextExpiry now2
    let strikePrice := currentPrice * (fin 1 + premiumPct / fin 100)
    let premium := calculatePremium currentPrice strikePrice daysToExpiry none
    let income := premium * sharesOwned
    some
      { strike_date := nextExpiry.isoDate
        strike_price := strikePrice
        current_price := currentPrice
        premium := premium
        premium_pct := premiumPct
        shares := sharesOwned
        income := income
        expires := nextExpiry.isoDate }

/-- How a call of `calculatePremium` ends: the body has no `throw` and only applies
arithmetic to numbers, so it always returns. -/
noncomputable def calculatePremiumOutcome (currentPrice strikePrice daysToExpiry : JSNum)
    (volatility : Option JSNum) : Except String JSNum :=
  Except.ok (calculatePremium currentPrice strikePrice daysToExpiry volatility)

/-- The comparison `a <= b`; false when either side is `NaN`. -/
def JSNum.le (a b : JSNum) : Prop := ¬ a.isNaN ∧ ¬ b.isNaN ∧ a.toEReal ≤ b.toEReal

/-- Whether the body execution that starts in state `s` calls `setDate`. -/
def loopAdvances (tz : Int) (s : LoopState) : Bool := decide ((loopBody tz s).fridays < 3)

/-- Number of `setDate` calls among the first `n` executions of the loop body from `s`. -/
def advanceCount (tz : Int) (s : LoopState) (n : Nat) : Nat :=
  ((List.range n).filter (fun j => loopAdvances tz ((loopBody tz)^[j] s))).length

/-- The spec's closed form: the weekday of the 1st of the target month, the offset to the
first Friday, then 14 more days. -/
def closedFormThirdFriday (tz year month : Int) : JSDate :=
  let first := newDate tz year month 1
  let w := first.getDay tz
  let firstFriday := 1 + (5 - w) % 7
  first.setDate tz (firstFriday + 14)

/-! ## Definitions used by the statements and proofs -/

/-- The `Date` at local midnight `k` days after the first day of month `M` of year `Y`. -/
def dayInMonth (tz Y M k : Int) : JSDate := ⟨UTC tz (MakeDate (MakeDay Y M (k + 1)) 0)⟩

/-- Number of Fridays met before reaching offset `j`, when the first Friday is at
offset `o`. -/
def fridaysBefore (o j : Nat) : Nat := if j ≤ o then 0 else if j ≤ o + 7 then 1 else 2

/-- Offset of the first Friday from the first day of a month that starts on weekday `w`. -/
def firstFridayOffset (w : Int) : Nat := ((5 - w) % 7).toNat

/-- The number `x` is finite and its value is the real `r`. -/
def Rep (x : JSNum) (r : ℝ) : Prop := x.isFinite ∧ x.toReal = r

/-- The sign used by the spec's normal-distribution formula: −1 below zero, +1 otherwise. -/
noncomputable def specSign (x : ℝ) : ℝ := if x < 0 then -1 else 1

/-- The spec's normal-distribution approximation `N(x) = 0.5·(1 + sign(x)·y)`, over the
reals. -/
noncomputable def specN (x : ℝ) : ℝ :=
  let a1 : ℝ := 0.254829592
  let a2 : ℝ := -0.284496736
  let a3 : ℝ := 1.421413741
  let a4 : ℝ := -1.453152027
  let a5 : ℝ := 1.061405429
  let p : ℝ := 0.3275911
  let z := |x| / Real.sqrt 2
  let t := 1 / (1 + p * z)
  let y := 1 - (((((a5 * t + a4) * t + a3) * t + a2) * t + a1) * t) * Real.exp (-(z ^ 2))
  0.5 * (1 + specSign x * y)

/-- The spec's premium `max(spot·N(d1) − strike·e^(−r·T)·N(d2), 0)`, over the reals. -/
noncomputable def specPremium (spot strike daysToExpiry sigma : ℝ) : ℝ :=
  let T := daysToExpiry / 365
  let r : ℝ := 0.05
  let d1 := (Real.log (spot / strike) + (r + 0.5 * sigma ^ 2) * T) / (sigma * Real.sqrt T)
  let d2 := d1 - sigma * Real.sqrt T
  Max.max (spot * specN d1 - strike * Real.exp (-r * T) * specN d2) 0

/-- The year of the month that `new Date(year, month, 1)` denotes. -/
def targetYear (year month : Int) : Int :=
  (if 0 ≤ year ∧ year ≤ 99 then 1900 + year else year) + month / 12

/-! ## Theorems -/

/-! ### Calendar arithmetic -/

theorem DayFromYear_bounds (y : Int) :
    146097 * (y - 1970) - 506 ≤ 400 * DayFromYear y ∧
    400 * DayFromYear y ≤ 146097 * (y - 1970) + 589 := by
  unfold DayFromYear
  omega

theorem YearFromTime_spec (t : Int) :
    DayFromYear (YearFromTime t) ≤ Day t ∧ Day t < DayFromYear (YearFromTime t + 1) := by
  unfold YearFromTime
  simp only
  generalize Day t = d
  have b0 := DayFromYear_bounds (1970 + 400 * d / 146097 - 1)
  have b1 := DayFromYear_bounds (1970 + 400 * d / 146097)
  have b2 := DayFromYear_bounds (1970 + 400 * d / 146097 + 1)
  have b3 := DayFromYear_bounds (1970 + 400 * d / 146097 + 1 + 1)
  have e : 1970 + 400 * d / 146097 - 1 + 1 = 1970 + 400 * d / 146097 := by ring
  split_ifs with h1 h2
  · rw [e]
    refine ⟨?_, h1⟩
    generalize DayFromYear (1970 + 400 * d / 146097 - 1) = A at *
    omega
  · refine ⟨h2, ?_⟩
    generalize DayFromYear (1970 + 400 * d / 146097 + 1 + 1) = A at *
    omega
  · omega

theorem DayFromYear_succ (y : Int) : DayFromYear (y + 1) = DayFromYear y + DaysInYear y := by
  unfold DayFromYear DaysInYear
  split_ifs <;> omega

theorem DaysInYear_pos (y : Int) : 365 ≤ DaysInYear y := by
  unfold DaysInYear
  split_ifs <;> omega

theorem DayFromYear_mono {a b : Int} (h : a ≤ b) : DayFromYear a ≤ DayFromYear b := by
  refine Int.le_induction (P := fun b => DayFromYear a ≤ DayFromYear b) (le_refl _) ?_ b h
  intro n _ ih
  have := DayFromYear_succ n
  have := DaysInYear_pos n
  omega

theorem year_unique (y y2 n : Int) (h1 : DayFromYear y ≤ n) (h2 : n < DayFromYear (y + 1))
    (h3 : DayFromYear y2 ≤ n) (h4 : n < DayFromYear (y2 + 1)) : y = y2 := by
  rcases lt_trichotomy y y2 with h | h | h
  · have := DayFromYear_mono (show y + 1 ≤ y2 by omega)
    omega
  · exact h
  · have := DayFromYear_mono (show y2 + 1 ≤ y by omega)
    omega

theorem YearFromTime_eq (y t : Int) (h1 : DayFromYear y ≤ Day t)
    (h2 : Day t < DayFromYear (y + 1)) : YearFromTime t = y :=
  (year_unique y (YearFromTime t) (Day t) h1 h2 (YearFromTime_spec t).1
    (YearFromTime_spec t).2).symm

theorem Day_MakeDate (d ms : Int) (h0 : 0 ≤ ms) (h1 : ms < msPerDay) :
    Day (MakeDate d ms) = d := by
  unfold Day MakeDate msPerDay at *
  omega

theorem TimeWithinDay_MakeDate (d ms : Int) (h0 : 0 ≤ ms) (h1 : ms < msPerDay) :
    TimeWithinDay (MakeDate d ms) = ms := by
  unfold TimeWithinDay MakeDate msPerDay at *
  omega

theorem DayWithinYear_range (t : Int) :
    0 ≤ DayWithinYear t ∧ DayWithinYear t < 365 + InLeapYear (YearFromTime t) := by
  have h := YearFromTime_spec t
  have hs := DayFromYear_succ (YearFromTime t)
  unfold DayWithinYear InLeapYear
  unfold DaysInYear at *
  split_ifs at * <;> omega

theorem InLeapYear_range (y : Int) : 0 ≤ InLeapYear y ∧ InLeapYear y ≤ 1 := by
  unfold InLeapYear
  split_ifs <;> omega

theorem DaysInYear_eq (y : Int) : DaysInYear y = 365 + InLeapYear y := by
  unfold InLeapYear DaysInYear
  split_ifs <;> omega

theorem monthOfDay_range (leap d : Int) : 0 ≤ monthOfDay leap d ∧ monthOfDay leap d ≤ 11 := by
  unfold monthOfDay
  by_cases h0 : d < 31
  · rw [if_pos h0]; omega
  rw [if_neg h0]
  by_cases h1 : d < 59 + leap
  · rw [if_pos h1]; omega
  rw [if_neg h1]
  by_cases h2 : d < 90 + leap
  · rw [if_pos h2]; omega
  rw [if_neg h2]
  by_cases h3 : d < 120 + leap
  · rw [if_pos h3]; omega
  rw [if_neg h3]
  by_cases h4 : d < 151 + leap
  · rw [if_pos h4]; omega
  rw [if_neg h4]
  by_cases h5 : d < 181 + leap
  · rw [if_pos h5]; omega
  rw [if_neg h5]
  by_cases h6 : d < 212 + leap
  · rw [if_pos h6]; omega
  rw [if_neg h6]
  by_cases h7 : d < 243 + leap
  · rw [if_pos h7]; omega
  rw [if_neg h7]
  by_cases h8 : d < 273 + leap
  · rw [if_pos h8]; omega
  rw [if_neg h8]
  by_cases h9 : d < 304 + leap
  · rw [if_pos h9]; omega
  rw [if_neg h9]
  by_cases h10 : d < 334 + leap
  · rw [if_pos h10]; omega
  rw [if_neg h10]
  omega

theorem monthOfDay_bounds (leap d : Int) (h0 : 0 ≤ d) (h1 : d < 365 + leap) :
    monthStart leap (monthOfDay leap d) ≤ d ∧ d < monthStart leap (monthOfDay leap d + 1) := by
  unfold monthOfDay
  by_cases h0 : d < 31
  · rw [if_pos h0]; simp only [monthStart]; norm_num; omega
  rw [if_neg h0]
  by_cases h1 : d < 59 + leap
  · rw [if_pos h1]; simp only [monthStart]; norm_num; omega
  rw [if_neg h1]
  by_cases h2 : d < 90 + leap
  · rw [if_pos h2]; simp only [monthStart]; norm_num; omega
  rw [if_neg h2]
  by_cases h3 : d < 120 + leap
  · rw [if_pos h3]; simp only [monthStart]; norm_num; omega
  rw [if_neg h3]
  by_cases h4 : d < 151 + leap
  · rw [if_pos h4]; simp only [monthStart]; norm_num; omega
  rw [if_neg h4]
  by_cases h5 : d < 181 + leap
  · rw [if_pos h5]; simp only [monthStart]; norm_num; omega
  rw [if_neg h5]
  by_cases h6 : d < 212 + leap
  · rw [if_pos h6]; simp only [monthStart]; norm_num; omega
  rw [if_neg h6]
  by_cases h7 : d < 243 + leap
  · rw [if_pos h7]; simp only [monthStart]; norm_num; omega
  rw [if_neg h7]
  by_cases h8 : d < 273 + leap
  · rw [if_pos h8]; simp only [monthStart]; norm_num; omega
  rw [if_neg h8]
  by_cases h9 : d < 304 + leap
  · rw [if_pos h9]; simp only [monthStart]; norm_num; omega
  rw [if_neg h9]
  by_cases h10 : d < 334 + leap
  · rw [if_pos h10]; simp only [monthStart]; norm_num; omega
  rw [if_neg h10]
  simp only [monthStart]; norm_num; omega

theorem monthStart_vals (leap : Int) :
    monthStart leap 0 = 0 ∧
    monthStart leap 1 = 31 ∧
    monthStart leap 2 = 59 + leap ∧
    monthStart leap 3 = 90 + leap ∧
    monthStart leap 4 = 120 + leap ∧
    monthStart leap 5 = 151 + leap ∧
    monthStart leap 6 = 181 + leap ∧
    monthStart leap 7 = 212 + leap ∧
    monthStart leap 8 = 243 + leap ∧
    monthStart leap 9 = 273 + leap ∧
    monthStart leap 10 = 304 + leap ∧
    monthStart leap 11 = 334 + leap ∧
    monthStart leap 12 = 365 + leap := by
  simp only [monthStart]; norm_num

theorem monthOfDay_monthStart (leap m k : Int) (hl0 : 0 ≤ leap) (hl1 : leap ≤ 1)
    (hm0 : 0 ≤ m) (hm1 : m ≤ 11) (hk0 : 0 ≤ k) (hk1 : k ≤ 27) :
    monthOfDay leap (monthStart leap m + k) = m := by
  interval_cases m <;> obtain ⟨e0, e1, e2, e3, e4, e5, e6, e7, e8, e9, e10, e11, e12⟩ := monthStart_vals leap <;>
    unfold monthOfDay <;> simp only [e0, e1, e2, e3, e4, e5, e6, e7, e8, e9, e10, e11, e12] <;> clear e0 e1 e2 e3 e4 e5 e6 e7 e8 e9 e10 e11 e12 <;>
    repeat (first | rw [if_pos (by omega)] | rw [if_neg (by omega)])

theorem monthStart_range (leap m : Int) (hl0 : 0 ≤ leap) (hl1 : leap ≤ 1)
    (hm0 : 0 ≤ m) (hm1 : m ≤ 11) :
    0 ≤ monthStart leap m ∧ monthStart leap m + 28 ≤ monthStart leap (m + 1) ∧
      monthStart leap (m + 1) ≤ 365 + leap := by
  interval_cases m <;> obtain ⟨e0, e1, e2, e3, e4, e5, e6, e7, e8, e9, e10, e11, e12⟩ := monthStart_vals leap <;>
    norm_num <;> simp only [e0, e1, e2, e3, e4, e5, e6, e7, e8, e9, e10, e11, e12] <;> clear e0 e1 e2 e3 e4 e5 e6 e7 e8 e9 e10 e11 e12 <;> omega

theorem MonthFromTime_range (t : Int) : 0 ≤ MonthFromTime t ∧ MonthFromTime t ≤ 11 :=
  monthOfDay_range _ _

theorem MakeDay_of_month (Y M d : Int) (h0 : 0 ≤ M) (h1 : M ≤ 11) :
    MakeDay Y M d = DayFromYear Y + monthStart (InLeapYear Y) M + d - 1 := by
  unfold MakeDay
  have e1 : M / 12 = 0 := by omega
  have e2 : M % 12 = M := by omega
  simp only [e1, e2, add_zero]

theorem fields_MakeDay (Y M k ms : Int) (hM0 : 0 ≤ M) (hM1 : M ≤ 11) (hk0 : 0 ≤ k)
    (hk1 : k ≤ 27) (hms0 : 0 ≤ ms) (hms1 : ms < msPerDay) :
    YearFromTime (MakeDate (MakeDay Y M (k + 1)) ms) = Y ∧
    MonthFromTime (MakeDate (MakeDay Y M (k + 1)) ms) = M ∧
    DateFromTime (MakeDate (MakeDay Y M (k + 1)) ms) = k + 1 := by
  have hD := Day_MakeDate (MakeDay Y M (k + 1)) ms hms0 hms1
  have hMk := MakeDay_of_month Y M (k + 1) hM0 hM1
  obtain ⟨hl0, hl1⟩ := InLeapYear_range Y
  obtain ⟨r0, r1, r2⟩ := monthStart_range (InLeapYear Y) M hl0 hl1 hM0 hM1
  have hsucc := DayFromYear_succ Y
  have hdiy := DaysInYear_eq Y
  have hY : YearFromTime (MakeDate (MakeDay Y M (k + 1)) ms) = Y := by
    apply YearFromTime_eq
    · rw [hD, hMk]
      generalize monthStart (InLeapYear Y) M = a at *
      omega
    · rw [hD, hMk, hsucc, hdiy]
      generalize monthStart (InLeapYear Y) M = a at *
      generalize monthStart (InLeapYear Y) (M + 1) = b at *
      omega
  have hdw : DayWithinYear (MakeDate (MakeDay Y M (k + 1)) ms)
      = monthStart (InLeapYear Y) M + k := by
    unfold DayWithinYear
    rw [hY, hD, hMk]
    ring
  have hMo : MonthFromTime (MakeDate (MakeDay Y M (k + 1)) ms) = M := by
    unfold MonthFromTime
    rw [hY, hdw]
    exact monthOfDay_monthStart _ _ _ hl0 hl1 hM0 hM1 hk0 hk1
  refine ⟨hY, hMo, ?_⟩
  unfold DateFromTime
  rw [hMo, hY, hdw]
  ring

/-! ### Dates within one month -/

theorem LocalTime_UTC (tz t : Int) : LocalTime tz (UTC tz t) = t := by
  unfold LocalTime UTC; ring

theorem msPerDay_pos : (0 : Int) < msPerDay := by unfold msPerDay; omega

theorem newDate_eq_dayInMonth (tz year month : Int) :
    newDate tz year month 1
      = dayInMonth tz ((if 0 ≤ year ∧ year ≤ 99 then 1900 + year else year) + month / 12)
          (month % 12) 0 := by
  unfold newDate dayInMonth
  have h0 : 0 ≤ month % 12 := Int.emod_nonneg _ (by omega)
  have h1 : month % 12 ≤ 11 := by omega
  rw [MakeDay_of_month _ (month % 12) _ h0 h1]
  unfold MakeDay
  simp

theorem dayInMonth_fields (tz Y M k : Int) (hM0 : 0 ≤ M) (hM1 : M ≤ 11) (hk0 : 0 ≤ k)
    (hk1 : k ≤ 27) :
    (dayInMonth tz Y M k).getFullYear tz = Y ∧ (dayInMonth tz Y M k).getMonth tz = M ∧
    (dayInMonth tz Y M k).getDate tz = k + 1 := by
  unfold JSDate.getFullYear JSDate.getMonth JSDate.getDate dayInMonth
  simp only [LocalTime_UTC]
  exact fields_MakeDay Y M k 0 hM0 hM1 hk0 hk1 (le_refl _) msPerDay_pos

theorem MakeDay_add (Y M k : Int) : MakeDay Y M (k + 1) = MakeDay Y M (0 + 1) + k := by
  unfold MakeDay
  ring

theorem dayInMonth_getDay (tz Y M k : Int) :
    (dayInMonth tz Y M k).getDay tz = ((dayInMonth tz Y M 0).getDay tz + k) % 7 := by
  unfold JSDate.getDay dayInMonth WeekDay
  simp only [LocalTime_UTC]
  rw [Day_MakeDate _ 0 (le_refl _) msPerDay_pos, Day_MakeDate _ 0 (le_refl _) msPerDay_pos]
  rw [MakeDay_add Y M k]
  generalize MakeDay Y M (0 + 1) = a
  omega

theorem dayInMonth_setDate (tz Y M k n : Int) (hM0 : 0 ≤ M) (hM1 : M ≤ 11) (hk0 : 0 ≤ k)
    (hk1 : k ≤ 27) :
    (dayInMonth tz Y M k).setDate tz (n + 1) = dayInMonth tz Y M n := by
  unfold JSDate.setDate
  have h := fields_MakeDay Y M k 0 hM0 hM1 hk0 hk1 (le_refl _) msPerDay_pos
  have e : LocalTime tz (dayInMonth tz Y M k).tv = MakeDate (MakeDay Y M (k + 1)) 0 := by
    unfold dayInMonth; simp only [LocalTime_UTC]
  simp only [e, h.1, h.2.1, TimeWithinDay_MakeDate _ 0 (le_refl _) msPerDay_pos]
  rfl

/-! ### The scanning loop -/

theorem whileLoop_of_cond_false (tz : Int) (fuel : Nat) (s : LoopState)
    (h : loopCond tz s = false) : whileLoop tz fuel s = some s := by
  unfold whileLoop
  simp [h]

theorem whileLoop_succ_of_cond (tz : Int) (fuel : Nat) (s : LoopState)
    (h : loopCond tz s = true) : whileLoop tz (fuel + 1) s = whileLoop tz fuel (loopBody tz s) := by
  rw [whileLoop]
  simp [h]

theorem whileLoop_zero_of_cond (tz : Int) (s : LoopState)
    (h : loopCond tz s = true) : whileLoop tz 0 s = none := by
  rw [whileLoop]
  simp [h]

theorem whileLoop_eq_iterate (tz : Int) (n : Nat) :
    ∀ (s : LoopState) (fuel : Nat),
      (∀ j, j < n → loopCond tz ((loopBody tz)^[j] s) = true) →
      loopCond tz ((loopBody tz)^[n] s) = false → n ≤ fuel →
      whileLoop tz fuel s = some ((loopBody tz)^[n] s) := by
  induction n with
  | zero =>
    intro s fuel _ h2 _
    exact whileLoop_of_cond_false tz fuel s h2
  | succ n ih =>
    intro s fuel h1 h2 hf
    obtain ⟨f, rfl⟩ : ∃ f, fuel = f + 1 := ⟨fuel - 1, by omega⟩
    rw [whileLoop_succ_of_cond tz f s (h1 0 (by omega))]
    rw [Function.iterate_succ_apply] at h2 ⊢
    refine ih (loopBody tz s) f ?_ h2 (by omega)
    intro j hj
    have := h1 (j + 1) (by omega)
    rwa [Function.iterate_succ_apply] at this

theorem whileLoop_eq_none (tz : Int) (n : Nat) :
    ∀ (s : LoopState) (fuel : Nat),
      (∀ j, j < n → loopCond tz ((loopBody tz)^[j] s) = true) → fuel < n →
      whileLoop tz fuel s = none := by
  induction n with
  | zero => intro s fuel _ hf; omega
  | succ n ih =>
    intro s fuel h1 hf
    cases fuel with
    | zero => exact whileLoop_zero_of_cond tz s (h1 0 (by omega))
    | succ f =>
      rw [whileLoop_succ_of_cond tz f s (h1 0 (by omega))]
      refine ih (loopBody tz s) f ?_ (by omega)
      intro j hj
      have := h1 (j + 1) (by omega)
      rwa [Function.iterate_succ_apply] at this

theorem loopBody_dayInMonth (tz Y M : Int) (k f : Nat) (hM0 : 0 ≤ M) (hM1 : M ≤ 11)
    (hk : k ≤ 26) :
    loopBody tz ⟨dayInMonth tz Y M k, f⟩ =
      if ((dayInMonth tz Y M 0).getDay tz + k) % 7 = 5 then
        (if f + 1 < 3 then ⟨dayInMonth tz Y M (k + 1 : Nat), f + 1⟩
          else ⟨dayInMonth tz Y M k, f + 1⟩)
      else (if f < 3 then ⟨dayInMonth tz Y M (k + 1 : Nat), f⟩ else ⟨dayInMonth tz Y M k, f⟩) := by
  have hf := dayInMonth_fields tz Y M k hM0 hM1 (by omega) (by omega)
  have hs := dayInMonth_setDate tz Y M k (k + 1) hM0 hM1 (by omega) (by omega)
  unfold loopBody
  simp only [hf.2.2, hs, dayInMonth_getDay tz Y M k]
  push_cast
  split_ifs <;> rfl

theorem loopCond_dayInMonth (tz Y M : Int) (k f : Nat) :
    loopCond tz ⟨dayInMonth tz Y M k, f⟩ =
      (((dayInMonth tz Y M 0).getDay tz + k) % 7 != 5 || decide (f < 3)) := by
  unfold loopCond
  simp only [dayInMonth_getDay tz Y M k]

theorem getDay_range (tz : Int) (d : JSDate) : 0 ≤ d.getDay tz ∧ d.getDay tz < 7 := by
  unfold JSDate.getDay WeekDay
  omega

theorem firstFridayOffset_spec (w : Int) (h0 : 0 ≤ w) (h1 : w < 7) :
    firstFridayOffset w ≤ 6 ∧ (w + (firstFridayOffset w : Int)) % 7 = 5 ∧
      ((firstFridayOffset w : Nat) : Int) = (5 - w) % 7 := by
  unfold firstFridayOffset
  omega

theorem iterate_loopBody (tz Y M : Int) (o : Nat) (hM0 : 0 ≤ M) (hM1 : M ≤ 11)
    (ho : o ≤ 6) (hw : ((dayInMonth tz Y M 0).getDay tz + (o : Int)) % 7 = 5) (j : Nat)
    (hj : j ≤ o + 14) :
    (loopBody tz)^[j] ⟨dayInMonth tz Y M 0, 0⟩
      = ⟨dayInMonth tz Y M (j : Nat), fridaysBefore o j⟩ := by
  induction j with
  | zero => simp [fridaysBefore]
  | succ j ih =>
    rw [Function.iterate_succ_apply', ih (by omega),
      loopBody_dayInMonth tz Y M j _ hM0 hM1 (by omega)]
    obtain ⟨hw0, hw1⟩ := getDay_range tz (dayInMonth tz Y M 0)
    generalize (dayInMonth tz Y M 0).getDay tz = w at *
    unfold fridaysBefore
    by_cases hfri : (w + (j : Int)) % 7 = 5
    · have hj2 : j = o ∨ j = o + 7 := by omega
      rw [if_pos hfri]
      rcases hj2 with rfl | rfl
      · simp
      · have c5 : ¬ o + 7 + 1 ≤ o := by omega
        simp [c5]
    · have hj2 : j ≠ o ∧ j ≠ o + 7 := by omega
      rw [if_neg hfri]
      by_cases c1 : j ≤ o
      · have c2 : j + 1 ≤ o := by omega
        simp [c1, c2]
      · by_cases c3 : j ≤ o + 7
        · have c4 : j + 1 ≤ o + 7 := by omega
          have c5 : ¬ j + 1 ≤ o := by omega
          simp [c1, c3, c4, c5]
        · have c4 : ¬ j + 1 ≤ o + 7 := by omega
          have c5 : ¬ j + 1 ≤ o := by omega
          simp [c1, c3, c4, c5]

theorem iterate_loopBody_last (tz Y M : Int) (o : Nat) (hM0 : 0 ≤ M) (hM1 : M ≤ 11)
    (ho : o ≤ 6) (hw : ((dayInMonth tz Y M 0).getDay tz + (o : Int)) % 7 = 5) :
    (loopBody tz)^[o + 15] ⟨dayInMonth tz Y M 0, 0⟩
      = ⟨dayInMonth tz Y M ((o + 14 : Nat) : Int), 3⟩ := by
  rw [Function.iterate_succ_apply', iterate_loopBody tz Y M o hM0 hM1 ho hw (o + 14) (le_refl _),
    loopBody_dayInMonth tz Y M (o + 14) _ hM0 hM1 (by omega)]
  have hfri : ((dayInMonth tz Y M 0).getDay tz + ((o + 14 : Nat) : Int)) % 7 = 5 := by
    push_cast
    omega
  rw [if_pos hfri]
  simp [fridaysBefore]

theorem loopCond_iterate (tz Y M : Int) (o : Nat) (hM0 : 0 ≤ M) (hM1 : M ≤ 11)
    (ho : o ≤ 6) (hw : ((dayInMonth tz Y M 0).getDay tz + (o : Int)) % 7 = 5) (j : Nat)
    (hj : j < o + 15) :
    loopCond tz ((loopBody tz)^[j] ⟨dayInMonth tz Y M 0, 0⟩) = true := by
  rw [iterate_loopBody tz Y M o hM0 hM1 ho hw j (by omega), loopCond_dayInMonth]
  have : fridaysBefore o j < 3 := by unfold fridaysBefore; split_ifs <;> omega
  simp [this]

theorem loopCond_iterate_last (tz Y M : Int) (o : Nat) (hM0 : 0 ≤ M) (hM1 : M ≤ 11)
    (ho : o ≤ 6) (hw : ((dayInMonth tz Y M 0).getDay tz + (o : Int)) % 7 = 5) :
    loopCond tz ((loopBody tz)^[o + 15] ⟨dayInMonth tz Y M 0, 0⟩) = false := by
  rw [iterate_loopBody_last tz Y M o hM0 hM1 ho hw, loopCond_dayInMonth]
  have hfri : ((dayInMonth tz Y M 0).getDay tz + ((o + 14 : Nat) : Int)) % 7 = 5 := by
    push_cast
    omega
  push_cast at hfri
  simp [hfri]

/-! ### Arithmetic on finite numbers -/

theorem Rep.fin (r : ℝ) : Rep (fin r) r := ⟨trivial, rfl⟩

theorem Rep.cases {x : JSNum} {r : ℝ} (h : Rep x r) : x = JSNum.fin r ∨ (x = negZero ∧ r = 0) := by
  obtain ⟨h1, h2⟩ := h
  cases x with
  | fin s => left; simp only [toReal] at h2; rw [h2]
  | negZero => right; exact ⟨rfl, by simpa [toReal] using h2.symm⟩
  | posInf => exact absurd h1 (by simp [isFinite])
  | negInf => exact absurd h1 (by simp [isFinite])
  | nan => exact absurd h1 (by simp [isFinite])

theorem add_def (a b : JSNum) : a + b = JSNum.add a b := rfl
theorem sub_def (a b : JSNum) : a - b = JSNum.add a (JSNum.neg b) := rfl
theorem mul_def (a b : JSNum) : a * b = JSNum.mul a b := rfl
theorem div_def (a b : JSNum) : a / b = JSNum.div a b := rfl
theorem neg_def (a : JSNum) : -a = JSNum.neg a := rfl

theorem Rep.neg {x : JSNum} {r : ℝ} (h : Rep x r) : Rep (-x) (-r) := by
  rcases h.cases with rfl | ⟨rfl, rfl⟩
  · rw [neg_def]
    unfold JSNum.neg
    by_cases h0 : r = 0
    · simp [h0, Rep, isFinite, toReal]
    · simp [h0, Rep, isFinite, toReal]
  · simp [neg_def, JSNum.neg, Rep, isFinite, toReal]

theorem Rep.add {x y : JSNum} {r s : ℝ} (hx : Rep x r) (hy : Rep y s) : Rep (x + y) (r + s) := by
  rcases hx.cases with rfl | ⟨rfl, rfl⟩ <;> rcases hy.cases with rfl | ⟨rfl, rfl⟩ <;>
    simp [add_def, JSNum.add, Rep, isFinite, toReal]

theorem Rep.sub {x y : JSNum} {r s : ℝ} (hx : Rep x r) (hy : Rep y s) : Rep (x - y) (r - s) := by
  rw [sub_def, ← add_def, ← neg_def, sub_eq_add_neg]
  exact hx.add hy.neg

theorem Rep.mul {x y : JSNum} {r s : ℝ} (hx : Rep x r) (hy : Rep y s) : Rep (x * y) (r * s) := by
  have hxr : x.toReal = r := hx.2
  have hys : y.toReal = s := hy.2
  have e : x * y = if x.toReal * y.toReal = 0 then signedZero (Xor' x.signBit y.signBit)
      else JSNum.fin (x.toReal * y.toReal) := by
    rw [mul_def]
    unfold JSNum.mul
    rcases hx.cases with rfl | ⟨rfl, rfl⟩ <;> rcases hy.cases with rfl | ⟨rfl, rfl⟩ <;>
      simp [isNaN, isInf, isZero]
  rw [e, hxr, hys]
  by_cases h0 : r * s = 0
  · rw [if_pos h0, h0]
    unfold signedZero
    split_ifs <;> simp [Rep, isFinite, toReal]
  · rw [if_neg h0]
    exact Rep.fin _

theorem Rep.div {x y : JSNum} {r s : ℝ} (hx : Rep x r) (hy : Rep y s) (hs : s ≠ 0) :
    Rep (x / y) (r / s) := by
  have hy' : y = JSNum.fin s := by
    rcases hy.cases with h | ⟨_, h⟩
    · exact h
    · exact absurd h hs
  subst hy'
  rw [div_def]
  unfold JSNum.div
  rcases hx.cases with rfl | ⟨rfl, rfl⟩
  · by_cases h0 : r = 0
    · subst h0
      simp only [isNaN, isInf, isZero, hs, signedZero, or_self, and_self, and_false, if_false,
        or_true, if_true]
      split_ifs <;> simp [Rep, isFinite, toReal]
    · simp [isNaN, isInf, isZero, hs, h0, toReal, Rep, isFinite]
  · simp only [isNaN, isInf, isZero, hs, signedZero, or_self, and_self, and_false, if_false,
      or_true, if_true]
    split_ifs <;> simp [Rep, isFinite, toReal]

theorem Rep.abs {x : JSNum} {r : ℝ} (hx : Rep x r) : Rep (JSNum.abs x) |r| := by
  rcases hx.cases with rfl | ⟨rfl, rfl⟩ <;> simp [JSNum.abs, Rep, isFinite, toReal]

theorem Rep.sqrt {x : JSNum} {r : ℝ} (hx : Rep x r) (h0 : 0 ≤ r) :
    Rep (JSNum.sqrt x) (Real.sqrt r) := by
  rcases hx.cases with rfl | ⟨rfl, rfl⟩
  · simp [JSNum.sqrt, Rep, isFinite, toReal, not_lt.mpr h0]
  · simp [JSNum.sqrt, Rep, isFinite, toReal]

theorem Rep.log {x : JSNum} {r : ℝ} (hx : Rep x r) (h0 : 0 < r) :
    Rep (JSNum.log x) (Real.log r) := by
  rcases hx.cases with rfl | ⟨rfl, rfl⟩
  · simp [JSNum.log, Rep, isFinite, toReal, not_lt.mpr h0.le, h0.ne']
  · exact absurd h0 (lt_irrefl _)

theorem Rep.exp {x : JSNum} {r : ℝ} (hx : Rep x r) : Rep (JSNum.exp x) (Real.exp r) := by
  rcases hx.cases with rfl | ⟨rfl, rfl⟩ <;> simp [JSNum.exp, Rep, isFinite, toReal]

theorem Rep.sq {x : JSNum} {r : ℝ} (hx : Rep x r) : Rep (JSNum.sq x) (r * r) := hx.mul hx

theorem Rep.lt_zero_iff {x : JSNum} {r : ℝ} (hx : Rep x r) : JSNum.lt x (JSNum.fin 0) ↔ r < 0 := by
  rcases hx.cases with rfl | ⟨rfl, rfl⟩
  · simp [JSNum.lt, isNaN, toEReal]
  · simp [JSNum.lt, isNaN, toEReal]

theorem Rep.max_zero {x : JSNum} {r : ℝ} (hx : Rep x r) :
    JSNum.max x (JSNum.fin 0) = JSNum.fin (Max.max r 0) := by
  rcases hx.cases with rfl | ⟨rfl, rfl⟩
  · unfold JSNum.max
    rcases lt_trichotomy r 0 with h | h | h
    · simp [JSNum.lt, isNaN, toEReal, h, max_eq_right h.le]
    · subst h
      simp [JSNum.lt, isNaN, toEReal, signBit]
    · simp [JSNum.lt, isNaN, toEReal, h, not_lt.mpr h.le, max_eq_left h.le, signBit]
  · simp [JSNum.max, JSNum.lt, isNaN, toEReal, signBit]

/-! ### The code computes the spec formula on finite inputs -/

theorem N_rep {x : JSNum} {r : ℝ} (hx : Rep x r) : Rep (N x) (specN r) := by
  have hz : Rep (JSNum.abs x / JSNum.sqrt (JSNum.fin 2)) (|r| / Real.sqrt 2) :=
    hx.abs.div ((Rep.fin 2).sqrt (by norm_num)) (by positivity)
  have hz0 : 0 ≤ |r| / Real.sqrt 2 := by positivity
  have hsign : Rep (if JSNum.lt x (JSNum.fin 0) then JSNum.fin (-1) else JSNum.fin 1) (specSign r) := by
    unfold specSign
    by_cases h : r < 0
    · rw [if_pos (hx.lt_zero_iff.mpr h), if_pos h]; exact Rep.fin _
    · rw [if_neg (fun c => h (hx.lt_zero_iff.mp c)), if_neg h]; exact Rep.fin _
  have ht := (Rep.fin 1.0).div ((Rep.fin 1.0).add ((Rep.fin 0.3275911).mul hz))
    (by positivity)
  have hpoly := (((((((((Rep.fin 1.061405429).mul ht).add (Rep.fin (-1.453152027))).mul ht).add
    (Rep.fin 1.421413741)).mul ht).add (Rep.fin (-0.284496736))).mul ht).add
    (Rep.fin 0.254829592)).mul ht
  have hy := (Rep.fin 1.0).sub (hpoly.mul (hz.neg.mul hz).exp)
  have key := (Rep.fin 0.5).mul ((Rep.fin 1.0).add (hsign.mul hy))
  refine ⟨key.1, ?_⟩
  have e := key.2
  unfold N
  simp only at e ⊢
  rw [e]
  unfold specN
  have one : (1.0 : ℝ) = 1 := by norm_num
  have e1 : -(|r| / Real.sqrt 2) * (|r| / Real.sqrt 2) = -((|r| / Real.sqrt 2) ^ 2) := by ring
  simp only [one, e1]

theorem calculatePremium_rep (s k d sigma : ℝ) (hs : 0 < s) (hk : 0 < k) (hd : 0 < d)
    (hsig : 0 < sigma) :
    calculatePremium (JSNum.fin s) (JSNum.fin k) (JSNum.fin d) (some (JSNum.fin sigma))
      = JSNum.fin (specPremium s k d sigma) := by
  have hT : Rep (timeToExpiry (JSNum.fin d)) (d / 365) :=
    (Rep.fin d).div (Rep.fin 365) (by norm_num)
  have hT0 : 0 < d / 365 := by positivity
  have hdiv : Rep (d1Divisor (JSNum.fin sigma) (JSNum.fin d)) (sigma * Real.sqrt (d / 365)) :=
    (Rep.fin sigma).mul (hT.sqrt hT0.le)
  have hdiv0 : sigma * Real.sqrt (d / 365) ≠ 0 := by positivity
  have hd1 := (((Rep.fin s).div (Rep.fin k) hk.ne').log (by positivity)).add
    ((((Rep.fin 0.05).add ((Rep.fin 0.5).mul (Rep.fin sigma).sq)).mul hT)) |>.div hdiv hdiv0
  have hd2 := hd1.sub ((Rep.fin sigma).mul (hT.sqrt hT0.le))
  have hcall := ((Rep.fin s).mul (N_rep hd1)).sub
    ((((Rep.fin k).mul (((Rep.fin 0.05).neg.mul hT).exp))).mul (N_rep hd2))
  have e := hcall.max_zero
  unfold calculatePremium
  simp only [Option.getD_some] at e ⊢
  rw [e]
  unfold specPremium
  simp only
  congr 1
  ring_nf

/-! ### Special values -/

theorem nan_add (x : JSNum) : nan + x = nan := by
  cases x <;> rfl

theorem add_nan (x : JSNum) : x + nan = nan := by
  cases x <;> rfl

theorem nan_sub (x : JSNum) : nan - x = nan := by
  rw [sub_def, ← add_def]; exact nan_add _

theorem sub_nan (x : JSNum) : x - nan = nan := by
  rw [sub_def]; exact add_nan x

theorem nan_mul (x : JSNum) : nan * x = nan := by
  simp [mul_def, JSNum.mul, isNaN]

theorem mul_nan (x : JSNum) : x * nan = nan := by
  simp [mul_def, JSNum.mul, isNaN]

theorem nan_div (x : JSNum) : nan / x = nan := by
  simp [div_def, JSNum.div, isNaN]

theorem div_nan (x : JSNum) : x / nan = nan := by
  simp [div_def, JSNum.div, isNaN]

theorem max_nan_left (x : JSNum) : JSNum.max nan x = nan := by
  simp [JSNum.max, isNaN]

theorem N_nan : N nan = nan := by
  unfold N
  simp only [JSNum.abs, nan_div, mul_nan, add_nan, div_nan, nan_mul, nan_add, sub_nan]

theorem zero_div_zero : JSNum.fin 0 / JSNum.fin 0 = nan := by
  simp [div_def, JSNum.div, isNaN, isInf, isZero]

theorem sqrt_fin {r : ℝ} (h : 0 ≤ r) : JSNum.sqrt (JSNum.fin r) = JSNum.fin (Real.sqrt r) := by
  simp [JSNum.sqrt, not_lt.mpr h]

theorem posInf_div_fin {s : ℝ} (h : 0 < s) : posInf / JSNum.fin s = posInf := by
  simp [div_def, JSNum.div, isNaN, isInf, isZero, signBit, signedInf, h.ne', not_lt.mpr h.le]

theorem fin_mul_posInf {r : ℝ} (h : 0 < r) : JSNum.fin r * posInf = posInf := by
  simp [mul_def, JSNum.mul, isNaN, isInf, isZero, signBit, signedInf, h.ne', not_lt.mpr h.le]

theorem fin_div_posInf {r : ℝ} (h : 0 ≤ r) : JSNum.fin r / posInf = JSNum.fin 0 := by
  simp [div_def, JSNum.div, isNaN, isInf, isZero, signBit, signedZero, not_lt.mpr h]

theorem pos_div_zero {r : ℝ} (h : 0 < r) : JSNum.fin r / JSNum.fin 0 = posInf := by
  simp [div_def, JSNum.div, isNaN, isInf, isZero, signBit, signedInf, h.ne', not_lt.mpr h.le]

theorem neg_div_zero {r : ℝ} (h : r < 0) : JSNum.fin r / JSNum.fin 0 = negInf := by
  simp [div_def, JSNum.div, isNaN, isInf, isZero, signBit, signedInf, h.ne, h]

theorem negInf_mul_posInf : negInf * posInf = negInf := by
  simp [mul_def, JSNum.mul, isNaN, isInf, isZero, signBit, signedInf]

/-- The scaled argument and the derived quantities of `N` at either infinity. -/
theorem N_at_infinity (x : JSNum) (hx : JSNum.abs x = posInf) :
    N x = JSNum.fin 0.5 * (JSNum.fin 1.0 +
      (if JSNum.lt x (JSNum.fin 0) then JSNum.fin (-1) else JSNum.fin 1) * JSNum.fin 1) := by
  have hz : JSNum.abs x / JSNum.sqrt (JSNum.fin 2) = posInf := by
    rw [hx, sqrt_fin (by norm_num), posInf_div_fin (by positivity)]
  have ht : JSNum.fin 1.0 / (JSNum.fin 1.0 + JSNum.fin 0.3275911 * posInf) = JSNum.fin 0 := by
    rw [fin_mul_posInf (by norm_num)]
    have e2 : JSNum.fin 1.0 + posInf = posInf := rfl
    rw [e2, fin_div_posInf (by norm_num)]
  have hexp : JSNum.exp (-posInf * posInf) = JSNum.fin 0 := by
    have e1 : -posInf = negInf := rfl
    rw [e1, negInf_mul_posInf]; rfl
  have hp := (((((((((Rep.fin 1.061405429).mul (Rep.fin 0)).add (Rep.fin (-1.453152027))).mul
    (Rep.fin 0)).add (Rep.fin 1.421413741)).mul (Rep.fin 0)).add (Rep.fin (-0.284496736))).mul
    (Rep.fin 0)).add (Rep.fin 0.254829592)).mul (Rep.fin 0) |>.mul (Rep.fin 0)
  have hy := (Rep.fin 1.0).sub hp
  have hy1 : JSNum.fin 1.0 - (((((JSNum.fin 1.061405429 *
      JSNum.fin 0 + JSNum.fin (-1.453152027)) * JSNum.fin 0 + JSNum.fin 1.421413741) *
      JSNum.fin 0 + JSNum.fin (-0.284496736)) * JSNum.fin 0 + JSNum.fin 0.254829592) *
      JSNum.fin 0 * JSNum.fin 0) = JSNum.fin 1 := by
    rcases hy.cases with h | ⟨_, h⟩
    · rw [h]; congr 1; norm_num
    · norm_num at h
  unfold N
  simp only [hz, ht, hexp, hy1]

theorem N_posInf : N posInf = JSNum.fin 1 := by
  have hs : ¬ JSNum.lt posInf (JSNum.fin 0) := by simp [JSNum.lt, toEReal, isNaN]
  rw [N_at_infinity posInf rfl, if_neg hs]
  have h := (Rep.fin 0.5).mul ((Rep.fin 1.0).add ((Rep.fin 1).mul (Rep.fin 1)))
  rcases h.cases with h | ⟨_, h⟩
  · rw [h]; congr 1; norm_num
  · norm_num at h

theorem N_negInf : N negInf = JSNum.fin 0 := by
  have hs : JSNum.lt negInf (JSNum.fin 0) := by simp [JSNum.lt, toEReal, isNaN]
  rw [N_at_infinity negInf rfl, if_pos hs]
  have h := (Rep.fin 1.0).add ((Rep.fin (-1)).mul (Rep.fin 1))
  have h1 : JSNum.fin 1.0 + JSNum.fin (-1) * JSNum.fin 1 = JSNum.fin 0 := by
    have e1 : JSNum.fin (-1) * JSNum.fin 1 = JSNum.fin (-1) := by
      simp [mul_def, JSNum.mul, isNaN, isInf, isZero, toReal]
    rw [e1, add_def]
    simp only [JSNum.add]
    congr 1
    norm_num
  rw [h1]
  simp [mul_def, JSNum.mul, isNaN, isInf, isZero, signBit, signedZero, toReal]
  norm_num

/-! ### The loop from the first day of a month -/

theorem emod_twelve_range (month : Int) : 0 ≤ month % 12 ∧ month % 12 ≤ 11 := by omega

theorem newDate_first (tz year month : Int) :
    newDate tz year month 1 = dayInMonth tz (targetYear year month) (month % 12) 0 :=
  newDate_eq_dayInMonth tz year month

theorem offset_spec (tz : Int) (d : JSDate) :
    firstFridayOffset (d.getDay tz) ≤ 6 ∧
      (d.getDay tz + (firstFridayOffset (d.getDay tz) : Int)) % 7 = 5 ∧
      ((firstFridayOffset (d.getDay tz) : Nat) : Int) = (5 - d.getDay tz) % 7 :=
  firstFridayOffset_spec _ (getDay_range tz d).1 (getDay_range tz d).2

/-- The scanning loop from the first day of a month ends on the third Friday. -/
theorem whileLoop_dayInMonth (tz Y M : Int) (hM0 : 0 ≤ M) (hM1 : M ≤ 11) (fuel : Nat)
    (hfuel : 21 ≤ fuel) :
    whileLoop tz fuel ⟨dayInMonth tz Y M 0, 0⟩ = some ⟨dayInMonth tz Y M
      ((firstFridayOffset ((dayInMonth tz Y M 0).getDay tz) + 14 : Nat) : Int), 3⟩ := by
  obtain ⟨ho, hw, _⟩ := offset_spec tz (dayInMonth tz Y M 0)
  rw [whileLoop_eq_iterate tz (firstFridayOffset ((dayInMonth tz Y M 0).getDay tz) + 15)
    _ fuel (fun j hj => loopCond_iterate tz Y M _ hM0 hM1 ho hw j hj)
    (loopCond_iterate_last tz Y M _ hM0 hM1 ho hw) (by omega),
    iterate_loopBody_last tz Y M _ hM0 hM1 ho hw]

theorem getNextMonthlyExpiry_eq (tz : Int) (now : JSDate) (fuel : Nat) (hfuel : 21 ≤ fuel) :
    getNextMonthlyExpiry fuel tz now = some (dayInMonth tz
      (targetYear (now.getFullYear tz) (now.getMonth tz + 1)) ((now.getMonth tz + 1) % 12)
      ((firstFridayOffset ((newDate tz (now.getFullYear tz) (now.getMonth tz + 1) 1).getDay tz)
        + 14 : Nat) : Int)) := by
  unfold getNextMonthlyExpiry
  simp only
  obtain ⟨h0, h1⟩ := emod_twelve_range (now.getMonth tz + 1)
  rw [newDate_first, whileLoop_dayInMonth tz _ _ h0 h1 fuel hfuel]
  rfl

theorem thirdFriday_fields (tz Y M : Int) (hM0 : 0 ≤ M) (hM1 : M ≤ 11) (o : Nat) (ho : o ≤ 6)
    (hw : ((dayInMonth tz Y M 0).getDay tz + (o : Int)) % 7 = 5) :
    (dayInMonth tz Y M ((o + 14 : Nat) : Int)).getFullYear tz = Y ∧
    (dayInMonth tz Y M ((o + 14 : Nat) : Int)).getMonth tz = M ∧
    (dayInMonth tz Y M ((o + 14 : Nat) : Int)).getDate tz = (o : Int) + 15 ∧
    (dayInMonth tz Y M ((o + 14 : Nat) : Int)).getDay tz = 5 := by
  obtain ⟨f1, f2, f3⟩ := dayInMonth_fields tz Y M ((o + 14 : Nat) : Int) hM0 hM1 (by omega)
    (by push_cast; omega)
  refine ⟨f1, f2, ?_, ?_⟩
  · rw [f3]; push_cast; ring
  · rw [dayInMonth_getDay]
    push_cast
    omega

/-- Claim C9. From the 1st of any month the loop `while (getDay() !== 5 || fridays < 3)`
stops: some `n ≤ 21` executions of the body end it (with fewer it is still running), the
counter `fridays` is then 3, at most 20 of the executions call `setDate`, and every state
on the way lies in the month and year of the start, on a day no later than the 21st. -/
theorem while_loop_terminates (tz year month : Int) :
    ∃ n : Nat, n ≤ 21 ∧
      (∀ fuel, n ≤ fuel → whileLoop tz fuel ⟨newDate tz year month 1, 0⟩
        = some ((loopBody tz)^[n] ⟨newDate tz year month 1, 0⟩)) ∧
      (∀ fuel, fuel < n → whileLoop tz fuel ⟨newDate tz year month 1, 0⟩ = none) ∧
      ((loopBody tz)^[n] ⟨newDate tz year month 1, 0⟩).fridays = 3 ∧
      advanceCount tz ⟨newDate tz year month 1, 0⟩ n ≤ 20 ∧
      ∀ j, j ≤ n →
        ((loopBody tz)^[j] ⟨newDate tz year month 1, 0⟩).thirdFriday.getDate tz ≤ 21 ∧
        ((loopBody tz)^[j] ⟨newDate tz year month 1, 0⟩).thirdFriday.getMonth tz
          = (newDate tz year month 1).getMonth tz ∧
        ((loopBody tz)^[j] ⟨newDate tz year month 1, 0⟩).thirdFriday.getFullYear tz
          = (newDate tz year month 1).getFullYear tz := by
  obtain ⟨hM0, hM1⟩ := emod_twelve_range month
  rw [newDate_first]
  obtain ⟨ho, hw, _⟩ := offset_spec tz (dayInMonth tz (targetYear year month) (month % 12) 0)
  generalize targetYear year month = Y at *
  generalize month % 12 = M at *
  generalize firstFridayOffset ((dayInMonth tz Y M 0).getDay tz) = o at *
  have hcond := fun j hj => loopCond_iterate tz Y M o hM0 hM1 ho hw j hj
  have hlast := iterate_loopBody_last tz Y M o hM0 hM1 ho hw
  have hstart := dayInMonth_fields tz Y M 0 hM0 hM1 (le_refl _) (by omega)
  refine ⟨o + 15, by omega, ?_, ?_, ?_, ?_, ?_⟩
  · intro fuel hf
    exact whileLoop_eq_iterate tz (o + 15) _ fuel hcond
      (loopCond_iterate_last tz Y M o hM0 hM1 ho hw) hf
  · intro fuel hf
    exact whileLoop_eq_none tz (o + 15) _ fuel hcond hf
  · rw [hlast]
  · unfold advanceCount
    have hle := List.length_filter_le
      (fun j => loopAdvances tz ((loopBody tz)^[j] ⟨dayInMonth tz Y M 0, 0⟩)) (List.range (o + 14))
    rw [List.range_succ, List.filter_append, List.length_append]
    have hl : loopAdvances tz ((loopBody tz)^[o + 14] ⟨dayInMonth tz Y M 0, 0⟩) = false := by
      unfold loopAdvances
      rw [← Function.iterate_succ_apply' (loopBody tz) (o + 14), hlast]
      simp
    simp only [List.filter_cons, hl, List.filter_nil, List.length_nil]
    rw [List.length_range] at hle
    simp only [Bool.false_eq_true, if_false, List.length_nil]
    omega
  · intro j hj
    rcases Nat.lt_or_ge j (o + 15) with h | h
    · rw [iterate_loopBody tz Y M o hM0 hM1 ho hw j (by omega)]
      obtain ⟨f1, f2, f3⟩ := dayInMonth_fields tz Y M (j : Nat) hM0 hM1 (by omega) (by omega)
      dsimp only
      rw [f1, f2, f3, hstart.1, hstart.2.1]
      exact ⟨by omega, rfl, rfl⟩
    · have : j = o + 15 := by omega
      subst this
      rw [hlast]
      obtain ⟨f1, f2, f3, _⟩ := thirdFriday_fields tz Y M hM0 hM1 o ho hw
      dsimp only
      rw [f1, f2, f3, hstart.1, hstart.2.1]
      exact ⟨by omega, rfl, rfl⟩

/-- Claim C8. The scanning loop computes the closed form: started on the 1st of any month,
whose weekday is `w`, it returns the date with day of month `1 + ((5 − w) mod 7) + 14` in
the same month and year, which is the date the closed form sets directly. -/
theorem loop_eq_closed_form (tz year month : Int) (fuel : Nat) (hfuel : 21 ≤ fuel) :
    (whileLoop tz fuel ⟨newDate tz year month 1, 0⟩).map (fun s => s.thirdFriday)
        = some (closedFormThirdFriday tz year month) ∧
      (closedFormThirdFriday tz year month).getDate tz
        = 1 + (5 - (newDate tz year month 1).getDay tz) % 7 + 14 ∧
      (closedFormThirdFriday tz year month).getMonth tz = (newDate tz year month 1).getMonth tz ∧
      (closedFormThirdFriday tz year month).getFullYear tz
        = (newDate tz year month 1).getFullYear tz := by
  obtain ⟨hM0, hM1⟩ := emod_twelve_range month
  unfold closedFormThirdFriday
  simp only
  rw [newDate_first]
  obtain ⟨ho, hw, hoe⟩ := offset_spec tz (dayInMonth tz (targetYear year month) (month % 12) 0)
  generalize targetYear year month = Y at *
  generalize month % 12 = M at *
  have hstart := dayInMonth_fields tz Y M 0 hM0 hM1 (le_refl _) (by omega)
  have hloop := whileLoop_dayInMonth tz Y M hM0 hM1 fuel hfuel
  obtain ⟨f1, f2, f3, _⟩ := thirdFriday_fields tz Y M hM0 hM1 _ ho hw
  generalize firstFridayOffset ((dayInMonth tz Y M 0).getDay tz) = o at *
  have hs := dayInMonth_setDate tz Y M 0 ((o + 14 : Nat) : Int) hM0 hM1 (le_refl _) (by omega)
  have harg : 1 + (5 - (dayInMonth tz Y M 0).getDay tz) % 7 + 14 = ((o + 14 : Nat) : Int) + 1 := by
    rw [← hoe]
    push_cast
    ring
  rw [harg, hs, hloop, f1, f2, f3, hstart.1, hstart.2.1]
  exact ⟨rfl, by push_cast; ring, rfl, rfl⟩

/-- Witness for C8: the loop from 1 February 2024 (a Thursday, `w = 4`). -/
theorem loop_eq_closed_form_witness :
    21 ≤ 21 ∧
    ((whileLoop 0 21 ⟨newDate 0 2024 1 1, 0⟩).map (fun s => s.thirdFriday)
        = some (closedFormThirdFriday 0 2024 1) ∧
      (closedFormThirdFriday 0 2024 1).getDate 0
        = 1 + (5 - (newDate 0 2024 1 1).getDay 0) % 7 + 14 ∧
      (closedFormThirdFriday 0 2024 1).getMonth 0 = (newDate 0 2024 1 1).getMonth 0 ∧
      (closedFormThirdFriday 0 2024 1).getFullYear 0 = (newDate 0 2024 1 1).getFullYear 0) ∧
    (newDate 0 2024 1 1).getDay 0 = 4 ∧ (closedFormThirdFriday 0 2024 1).getDate 0 = 16 :=
  ⟨by decide, loop_eq_closed_form 0 2024 1 21 (by decide), by decide, by decide⟩

theorem targetYear_next (y m : Int) (hy : ¬ (0 ≤ y ∧ y ≤ 99)) (hm0 : 0 ≤ m) (hm1 : m ≤ 11) :
    (m ≤ 10 → targetYear y (m + 1) = y ∧ (m + 1) % 12 = m + 1) ∧
    (m = 11 → targetYear y (m + 1) = y + 1 ∧ (m + 1) % 12 = 0) := by
  unfold targetYear
  rw [if_neg hy]
  omega

/-- Claim C1. For a clock reading whose local year is not one of the two-digit years 0..99
(which the `Date` constructor reads as 1900..1999), `getNextMonthlyExpiry` returns the third
Friday of the following calendar month: a Friday, on a day of month in 15..21, with exactly
two Fridays on earlier days of its month (7 and 14 days before), in month `m + 1` of the
same year when the current month `m` is January..November and in January of the next year
when it is December. -/
theorem getNextMonthlyExpiry_third_friday (tz : Int) (now : JSDate) (fuel : Nat)
    (hfuel : 21 ≤ fuel) (hyear : ¬ (0 ≤ now.getFullYear tz ∧ now.getFullYear tz ≤ 99)) :
    ∃ e : JSDate, getNextMonthlyExpiry fuel tz now = some e ∧
      e.getDay tz = 5 ∧ 15 ≤ e.getDate tz ∧ e.getDate tz ≤ 21 ∧
      (∀ d : Int, 1 ≤ d → d < e.getDate tz →
        ((e.setDate tz d).getDay tz = 5 ↔ (d = e.getDate tz - 14 ∨ d = e.getDate tz - 7))) ∧
      (now.getMonth tz ≤ 10 →
        e.getFullYear tz = now.getFullYear tz ∧ e.getMonth tz = now.getMonth tz + 1) ∧
      (now.getMonth tz = 11 →
        e.getFullYear tz = now.getFullYear tz + 1 ∧ e.getMonth tz = 0) := by
  refine ⟨_, getNextMonthlyExpiry_eq tz now fuel hfuel, ?_⟩
  obtain ⟨hm0, hm1⟩ := MonthFromTime_range (LocalTime tz now.tv)
  have hty := targetYear_next (now.getFullYear tz) (now.getMonth tz) hyear hm0 hm1
  obtain ⟨hM0, hM1⟩ := emod_twelve_range (now.getMonth tz + 1)
  rw [newDate_first]
  obtain ⟨ho, hw, _⟩ := offset_spec tz (dayInMonth tz
    (targetYear (now.getFullYear tz) (now.getMonth tz + 1)) ((now.getMonth tz + 1) % 12) 0)
  generalize targetYear (now.getFullYear tz) (now.getMonth tz + 1) = Y at *
  generalize (now.getMonth tz + 1) % 12 = M at *
  generalize firstFridayOffset ((dayInMonth tz Y M 0).getDay tz) = o at *
  obtain ⟨f1, f2, f3, f4⟩ := thirdFriday_fields tz Y M hM0 hM1 o ho hw
  rw [f1, f2, f3, f4]
  refine ⟨rfl, by omega, by omega, ?_, ?_, ?_⟩
  · intro d hd0 hd1
    have hs := dayInMonth_setDate tz Y M ((o + 14 : Nat) : Int) (d - 1) hM0 hM1 (by omega)
      (by push_cast; omega)
    rw [sub_add_cancel] at hs
    rw [hs, dayInMonth_getDay]
    obtain ⟨hw0, hw1⟩ := getDay_range tz (dayInMonth tz Y M 0)
    generalize (dayInMonth tz Y M 0).getDay tz = w at *
    omega
  · intro h
    exact ⟨(hty.1 h).1, (hty.1 h).2⟩
  · intro h
    exact ⟨(hty.2 h).1, (hty.2 h).2⟩

/-- Witness for C1: the reference dates 2024-01-10 and 2024-12-20 (in UTC), which give
2024-02-16 and 2025-01-17. -/
theorem getNextMonthlyExpiry_third_friday_witness :
    (21 ≤ 21 ∧ ¬ (0 ≤ (newDate 0 2024 0 10).getFullYear 0 ∧ (newDate 0 2024 0 10).getFullYear 0 ≤ 99)) ∧
    (∃ e : JSDate, getNextMonthlyExpiry 21 0 (newDate 0 2024 0 10) = some e ∧
      e.getDay 0 = 5 ∧ 15 ≤ e.getDate 0 ∧ e.getDate 0 ≤ 21 ∧
      (∀ d : Int, 1 ≤ d → d < e.getDate 0 →
        ((e.setDate 0 d).getDay 0 = 5 ↔ (d = e.getDate 0 - 14 ∨ d = e.getDate 0 - 7))) ∧
      ((newDate 0 2024 0 10).getMonth 0 ≤ 10 →
        e.getFullYear 0 = (newDate 0 2024 0 10).getFullYear 0 ∧
        e.getMonth 0 = (newDate 0 2024 0 10).getMonth 0 + 1) ∧
      ((newDate 0 2024 0 10).getMonth 0 = 11 →
        e.getFullYear 0 = (newDate 0 2024 0 10).getFullYear 0 + 1 ∧ e.getMonth 0 = 0)) ∧
    (getNextMonthlyExpiry 21 0 (newDate 0 2024 0 10)).map JSDate.isoDate = some (2024, 2, 16) ∧
    (getNextMonthlyExpiry 21 0 (newDate 0 2024 11 20)).map JSDate.isoDate = some (2025, 1, 17) :=
  ⟨⟨by decide, by decide⟩,
    getNextMonthlyExpiry_third_friday 0 (newDate 0 2024 0 10) 21 (by decide) (by decide),
    by decide, by decide⟩

/-! ### The expiry and the clock -/

/-- The first day of the month after the one containing local time `t` comes after `t`. -/
theorem next_month_after (t : Int) :
    Day t < MakeDay (targetYear (YearFromTime t) (MonthFromTime t + 1))
      ((MonthFromTime t + 1) % 12) (0 + 1) := by
  obtain ⟨hm0, hm1⟩ := MonthFromTime_range t
  obtain ⟨hM0, hM1⟩ := emod_twelve_range (MonthFromTime t + 1)
  obtain ⟨hd0, hd1⟩ := DayWithinYear_range t
  have hb := (monthOfDay_bounds _ _ hd0 hd1).2
  have hdw : Day t = DayFromYear (YearFromTime t) + DayWithinYear t := by
    unfold DayWithinYear; ring
  have hsucc := DayFromYear_succ (YearFromTime t)
  have hdiy := DaysInYear_eq (YearFromTime t)
  rw [MakeDay_of_month _ _ _ hM0 hM1, hdw]
  change DayWithinYear t < monthStart (InLeapYear (YearFromTime t)) (MonthFromTime t + 1) at hb
  obtain ⟨hl0, hl1⟩ := InLeapYear_range (YearFromTime t)
  have hr := (monthStart_range _ _ hl0 hl1 hm0 hm1).2.2
  obtain ⟨hL0, hL1⟩ := InLeapYear_range (targetYear (YearFromTime t) (MonthFromTime t + 1))
  have hr2 := (monthStart_range _ _ hL0 hL1 hM0 hM1).1
  by_cases hq : 0 ≤ YearFromTime t ∧ YearFromTime t ≤ 99
  · have hY : YearFromTime t + 1 ≤ targetYear (YearFromTime t) (MonthFromTime t + 1) := by
      unfold targetYear
      rw [if_pos hq]
      omega
    have hmono := DayFromYear_mono hY
    generalize monthStart _ ((MonthFromTime t + 1) % 12) = a at *
    generalize monthStart _ (MonthFromTime t + 1) = b at *
    generalize DayFromYear (targetYear (YearFromTime t) (MonthFromTime t + 1)) = c at *
    omega
  · by_cases h11 : MonthFromTime t = 11
    · have hY : targetYear (YearFromTime t) (MonthFromTime t + 1) = YearFromTime t + 1 := by
        unfold targetYear
        rw [if_neg hq]
        omega
      rw [hY] at hr2 ⊢
      generalize monthStart _ ((MonthFromTime t + 1) % 12) = a at *
      generalize monthStart _ (MonthFromTime t + 1) = b at *
      omega
    · have hY : targetYear (YearFromTime t) (MonthFromTime t + 1) = YearFromTime t := by
        unfold targetYear
        rw [if_neg hq]
        omega
      have hMe : (MonthFromTime t + 1) % 12 = MonthFromTime t + 1 := by omega
      rw [hY, hMe]
      generalize monthStart _ (MonthFromTime t + 1) = b at *
      omega

/-- The returned expiry lies more than 14 days after the clock reading. -/
theorem expiry_after_now (tz : Int) (now : JSDate) (fuel : Nat) (hfuel : 21 ≤ fuel) :
    ∃ e : JSDate, getNextMonthlyExpiry fuel tz now = some e ∧
      now.tv + 14 * msPerDay < e.tv := by
  refine ⟨_, getNextMonthlyExpiry_eq tz now fuel hfuel, ?_⟩
  have h := next_month_after (LocalTime tz now.tv)
  unfold JSDate.getFullYear JSDate.getMonth
  generalize targetYear (YearFromTime (LocalTime tz now.tv))
    (MonthFromTime (LocalTime tz now.tv) + 1) = Y at *
  generalize (MonthFromTime (LocalTime tz now.tv) + 1) % 12 = M at *
  generalize firstFridayOffset _ = o
  unfold dayInMonth
  simp only
  rw [MakeDay_add]
  generalize MakeDay Y M (0 + 1) = D at *
  unfold UTC MakeDate
  unfold Day LocalTime at h
  push_cast
  unfold msPerDay at *
  omega

/-- The UTC weekday of the returned expiry, which is the weekday of the date part of its
`toISOString()`: Thursday for a zone east of UTC, Friday for UTC and zones west of it. -/
theorem expiry_utc_weekday (tz : Int) (now : JSDate) (fuel : Nat) (hfuel : 21 ≤ fuel) :
    ∃ e : JSDate, getNextMonthlyExpiry fuel tz now = some e ∧
      (0 < tz → tz ≤ msPerDay → WeekDay e.tv = 4) ∧
      (-msPerDay < tz → tz ≤ 0 → WeekDay e.tv = 5) := by
  refine ⟨_, getNextMonthlyExpiry_eq tz now fuel hfuel, ?_⟩
  obtain ⟨hM0, hM1⟩ := emod_twelve_range (now.getMonth tz + 1)
  rw [newDate_first]
  obtain ⟨ho, hw, _⟩ := offset_spec tz (dayInMonth tz
    (targetYear (now.getFullYear tz) (now.getMonth tz + 1)) ((now.getMonth tz + 1) % 12) 0)
  have hfri := (thirdFriday_fields tz _ _ hM0 hM1 _ ho hw).2.2.2
  generalize targetYear (now.getFullYear tz) (now.getMonth tz + 1) = Y at *
  generalize (now.getMonth tz + 1) % 12 = M at *
  generalize firstFridayOffset ((dayInMonth tz Y M 0).getDay tz) = o at *
  clear hw
  unfold JSDate.getDay dayInMonth at hfri
  simp only [LocalTime_UTC] at hfri
  unfold WeekDay at hfri ⊢
  rw [Day_MakeDate _ 0 (le_refl _) msPerDay_pos] at hfri
  unfold dayInMonth
  simp only
  generalize MakeDay Y M (((o + 14 : Nat) : Int) + 1) = D at *
  unfold UTC MakeDate Day
  unfold msPerDay
  constructor
  · intro h1 h2
    omega
  · intro h1 h2
    omega

/-! ### `calculatePremium` outside the finite case -/

theorem Rep.eq_fin {x : JSNum} {r : ℝ} (h : Rep x r) (h0 : r ≠ 0) : x = JSNum.fin r := by
  rcases h.cases with h | ⟨_, h⟩
  · exact h
  · exact absurd h h0

theorem Rep.isZero {x : JSNum} {r : ℝ} (h : Rep x r) (h0 : r = 0) : x.isZero := by
  rcases h.cases with rfl | ⟨rfl, _⟩
  · exact h0
  · trivial

theorem zero_div_isZero {x y : JSNum} (hx : x.isZero) (hy : y.isZero) : x / y = nan := by
  have hx1 : ¬ x.isNaN := by cases x <;> simp_all [JSNum.isZero, isNaN]
  have hy1 : ¬ y.isNaN := by cases y <;> simp_all [JSNum.isZero, isNaN]
  simp [div_def, JSNum.div, hx, hy, hx1, hy1]

theorem fin_mul_zero {r : ℝ} (h : 0 ≤ r) : JSNum.fin r * JSNum.fin 0 = JSNum.fin 0 := by
  simp [mul_def, JSNum.mul, isNaN, isInf, JSNum.isZero, signBit, signedZero, toReal,
    not_lt.mpr h]

theorem posInf_sub_fin (r : ℝ) : posInf - JSNum.fin r = posInf := by
  rw [sub_def]
  simp only [JSNum.neg]
  split_ifs <;> rfl

theorem negInf_sub_fin (r : ℝ) : negInf - JSNum.fin r = negInf := by
  rw [sub_def]
  simp only [JSNum.neg]
  split_ifs <;> rfl

theorem timeToExpiry_zero : timeToExpiry (JSNum.fin 0) = JSNum.fin 0 :=
  ((Rep.fin 0).div (Rep.fin 365) (by norm_num)).cases.elim
    (fun h => by rw [timeToExpiry, h]; congr 1; norm_num)
    (fun h => by
      have : JSNum.fin 0 / JSNum.fin 365 = JSNum.fin 0 := by
        simp [div_def, JSNum.div, isNaN, isInf, JSNum.isZero, signBit, signedZero]
      rw [timeToExpiry, this])

theorem sqrt_zero : JSNum.sqrt (JSNum.fin 0) = JSNum.fin 0 := by
  rw [sqrt_fin (le_refl _), Real.sqrt_zero]

/-- With `daysToExpiry = 0` the divisor of `d1` is zero: in the money `d1` is `+∞` and the
result is `spot − strike`, out of the money `d1` is `−∞` and the result is 0, at the money
`d1` is `0/0` and the result is `NaN`. -/
theorem calculatePremium_zero_days (s k sigma : ℝ) (hs : 0 < s) (hk : 0 < k)
    (hsig : 0 < sigma) :
    calculatePremium (JSNum.fin s) (JSNum.fin k) (JSNum.fin 0) (some (JSNum.fin sigma))
      = if s = k then nan else JSNum.fin (Max.max (s - k) 0) := by
  have hdiv : d1Divisor (JSNum.fin sigma) (JSNum.fin 0) = JSNum.fin 0 := by
    rw [d1Divisor, timeToExpiry_zero, sqrt_zero, fin_mul_zero hsig.le]
  have hvol : JSNum.fin sigma * JSNum.sqrt (JSNum.fin 0) = JSNum.fin 0 := by
    rw [sqrt_zero, fin_mul_zero hsig.le]
  have hnum := (((Rep.fin s).div (Rep.fin k) hk.ne').log (by positivity)).add
    (((Rep.fin 0.05).add ((Rep.fin 0.5).mul (Rep.fin sigma).sq)).mul (Rep.fin 0))
  have hexp := ((Rep.fin 0.05).neg.mul (Rep.fin 0)).exp
  unfold calculatePremium
  simp only [Option.getD_some, timeToExpiry_zero, hdiv, hvol]
  rcases lt_trichotomy s k with h | h | h
  · have hL : Real.log (s / k) < 0 := Real.log_neg (by positivity) ((div_lt_one hk).mpr h)
    have hv : Real.log (s / k) + (0.05 + 0.5 * (sigma * sigma)) * 0 < 0 := by
      rw [mul_zero, add_zero]; exact hL
    rw [hnum.eq_fin hv.ne, neg_div_zero hv, negInf_sub_fin, N_negInf, if_neg h.ne]
    have hcall := ((Rep.fin s).mul (Rep.fin 0)).sub (((Rep.fin k).mul hexp).mul (Rep.fin 0))
    rw [hcall.max_zero]
    congr 1
    rw [mul_zero, mul_zero, sub_zero, max_self, max_eq_right (by linarith)]
  · have hv : Real.log (s / k) + (0.05 + 0.5 * (sigma * sigma)) * 0 = 0 := by
      rw [h, div_self hk.ne', Real.log_one, mul_zero, add_zero]
    rw [zero_div_isZero (hnum.isZero hv) (show (JSNum.fin 0).isZero from rfl), if_pos h]
    simp only [nan_sub, N_nan, mul_nan, sub_nan, max_nan_left]
  · have hL : 0 < Real.log (s / k) := Real.log_pos ((one_lt_div hk).mpr h)
    have hv : 0 < Real.log (s / k) + (0.05 + 0.5 * (sigma * sigma)) * 0 := by
      rw [mul_zero, add_zero]; exact hL
    rw [hnum.eq_fin hv.ne', pos_div_zero hv, posInf_sub_fin, N_posInf, if_neg h.ne']
    have hcall := ((Rep.fin s).mul (Rep.fin 1)).sub (((Rep.fin k).mul hexp).mul (Rep.fin 1))
    rw [hcall.max_zero]
    congr 1
    rw [mul_zero, Real.exp_zero, mul_one, mul_one, mul_one]

/-- With spot 0 and a zero strike the quotient `spot / strike` is `0/0`, and the `NaN`
reaches the result. -/
theorem calculatePremium_zero_spot (K d : JSNum) (v : Option JSNum) (hK : K.isZero ∨ K.isNaN) :
    calculatePremium (JSNum.fin 0) K d v = nan := by
  have h : JSNum.fin 0 / K = nan := by
    rcases hK with h | h
    · exact zero_div_isZero rfl h
    · cases K <;> simp_all [isNaN, div_nan]
  unfold calculatePremium
  simp only [h, JSNum.log, nan_add, nan_div, nan_sub, N_nan, mul_nan, sub_nan, max_nan_left]

/-! ### Days to expiry, and the premium formula -/

theorem daysToExpiry_pos (e now2 : JSDate) (h : now2.tv < e.tv) :
    ∃ n : Int, 1 ≤ n ∧ daysToExpiry e now2 = JSNum.fin (n : ℝ) := by
  have hq := ((Rep.fin (e.tv : ℝ)).sub (Rep.fin (now2.tv : ℝ))).div
    ((((Rep.fin 1000).mul (Rep.fin 60)).mul (Rep.fin 60)).mul (Rep.fin 24)) (by norm_num)
  have hpos : 0 < ((e.tv : ℝ) - (now2.tv : ℝ)) / (1000 * 60 * 60 * 24) := by
    have : (now2.tv : ℝ) < (e.tv : ℝ) := by exact_mod_cast h
    apply div_pos <;> linarith
  refine ⟨⌈((e.tv : ℝ) - (now2.tv : ℝ)) / (1000 * 60 * 60 * 24)⌉, ?_, ?_⟩
  · have := Int.ceil_pos.mpr hpos
    omega
  · unfold daysToExpiry
    rw [hq.eq_fin hpos.ne']
    simp only [JSNum.ceil]
    rw [if_pos (Or.inr hpos.le)]

theorem timeToExpiry_pos (n : Int) (hn : 1 ≤ n) :
    ∃ T : ℝ, 0 < T ∧ timeToExpiry (JSNum.fin (n : ℝ)) = JSNum.fin T ∧
      ∃ v : ℝ, v ≠ 0 ∧ d1Divisor (JSNum.fin 0.30) (JSNum.fin (n : ℝ)) = JSNum.fin v := by
  have hn0 : (0 : ℝ) < (n : ℝ) := by exact_mod_cast (show (0 : Int) < n by omega)
  have hT := (Rep.fin (n : ℝ)).div (Rep.fin 365) (by norm_num)
  have hT0 : 0 < (n : ℝ) / 365 := by positivity
  have hd := (Rep.fin 0.30).mul (hT.sqrt hT0.le)
  have hd0 : (0.30 : ℝ) * Real.sqrt ((n : ℝ) / 365) ≠ 0 := by positivity
  exact ⟨_, hT0, hT.eq_fin hT0.ne', _, hd0, hd.eq_fin hd0⟩

/-- Claim C2. The date returned by `getNextMonthlyExpiry` is strictly (in fact more than 14
days) after the clock reading `now`.  For a handler clock reading `now2` less than 14 days
after `now` (in particular the same instant), `daysToExpiry` is an integer of at least 1 in
both routes, so `timeToExpiry = daysToExpiry/365` is strictly positive and the divisor
`impliedVolatility·sqrt(timeToExpiry)`, with the default volatility 0.30, is not zero. -/
theorem days_to_expiry_positive (tz : Int) (now now2 : JSDate) (fuel : Nat)
    (hfuel : 21 ≤ fuel) (hnow2 : now2.tv < now.tv + 14 * msPerDay) :
    ∃ (e : JSDate) (n : Int), getNextMonthlyExpiry fuel tz now = some e ∧
      now.tv < e.tv ∧ now2.tv < e.tv ∧
      daysToExpiry e now2 = JSNum.fin (n : ℝ) ∧ 1 ≤ n ∧
      (∃ T : ℝ, 0 < T ∧ timeToExpiry (daysToExpiry e now2) = JSNum.fin T) ∧
      (∃ v : ℝ, v ≠ 0 ∧ d1Divisor (JSNum.fin 0.30) (daysToExpiry e now2) = JSNum.fin v) ∧
      (∀ closes sharesOwned premiumPct totalIncome,
        ∃ r, apiStatus fuel tz now now2 closes sharesOwned premiumPct totalIncome = some r ∧
          r.daysToExpiry = JSNum.fin (n : ℝ) ∧
          r.estimatedPremium
            = calculatePremium r.currentPrice r.strikePrice (JSNum.fin (n : ℝ)) none) ∧
      (∀ closes sharesOwned premiumPct,
        ∃ c, apiCalls fuel tz now now2 closes sharesOwned premiumPct = some c ∧
          c.premium = calculatePremium c.current_price c.strike_price (JSNum.fin (n : ℝ)) none) := by
  obtain ⟨e, he, hlt⟩ := expiry_after_now tz now fuel hfuel
  have h2 : now2.tv < e.tv := by omega
  have h1 : now.tv < e.tv := by
    have := msPerDay_pos
    omega
  obtain ⟨n, hn, hd⟩ := daysToExpiry_pos e now2 h2
  obtain ⟨T, hT, hTe, v, hv, hve⟩ := timeToExpiry_pos n hn
  refine ⟨e, n, he, h1, h2, hd, hn, ⟨T, hT, by rw [hd, hTe]⟩, ⟨v, hv, by rw [hd, hve]⟩, ?_, ?_⟩
  · intro closes sharesOwned premiumPct totalIncome
    unfold apiStatus
    simp only [he, hd]
    exact ⟨_, rfl, rfl, rfl⟩
  · intro closes sharesOwned premiumPct
    unfold apiCalls
    simp only [he, hd]
    exact ⟨_, rfl, rfl⟩

/-- Witness for C2: the clock reads 2024-01-10T00:00Z in both places; the expiry is
2024-02-16, 37 days later. -/
theorem days_to_expiry_positive_witness :
    (21 ≤ 21 ∧ (newDate 0 2024 0 10).tv < (newDate 0 2024 0 10).tv + 14 * msPerDay) ∧
    (∃ (e : JSDate) (n : Int),
      getNextMonthlyExpiry 21 0 (newDate 0 2024 0 10) = some e ∧
      (newDate 0 2024 0 10).tv < e.tv ∧ (newDate 0 2024 0 10).tv < e.tv ∧
      daysToExpiry e (newDate 0 2024 0 10) = JSNum.fin (n : ℝ) ∧ 1 ≤ n ∧
      (∃ T : ℝ, 0 < T ∧ timeToExpiry (daysToExpiry e (newDate 0 2024 0 10)) = JSNum.fin T) ∧
      (∃ v : ℝ, v ≠ 0 ∧
        d1Divisor (JSNum.fin 0.30) (daysToExpiry e (newDate 0 2024 0 10)) = JSNum.fin v) ∧
      (∀ closes sharesOwned premiumPct totalIncome,
        ∃ r, apiStatus 21 0 (newDate 0 2024 0 10) (newDate 0 2024 0 10) closes sharesOwned
            premiumPct totalIncome = some r ∧
          r.daysToExpiry = JSNum.fin (n : ℝ) ∧
          r.estimatedPremium
            = calculatePremium r.currentPrice r.strikePrice (JSNum.fin (n : ℝ)) none) ∧
      (∀ closes sharesOwned premiumPct,
        ∃ c, apiCalls 21 0 (newDate 0 2024 0 10) (newDate 0 2024 0 10) closes sharesOwned
            premiumPct = some c ∧
          c.premium
            = calculatePremium c.current_price c.strike_price (JSNum.fin (n : ℝ)) none)) ∧
    (newDate 0 2024 1 16).tv - (newDate 0 2024 0 10).tv = 37 * msPerDay :=
  ⟨⟨by decide, by decide⟩,
    days_to_expiry_positive 0 (newDate 0 2024 0 10) (newDate 0 2024 0 10) 21 (by decide)
      (by decide),
    by decide⟩

/-- Claim C4. For positive spot, strike and volatility and `daysToExpiry > 0`,
`calculatePremium` returns `max(spot·N(d1) − strike·e^(−r·T)·N(d2), 0)` with `T`, `r`, `d1`,
`d2` and the Abramowitz–Stegun `N` of the spec, in exact real arithmetic; an omitted
volatility is 0.30. -/
theorem calculatePremium_black_scholes (s k d sigma : ℝ) (hs : 0 < s) (hk : 0 < k)
    (hd : 0 < d) (hsig : 0 < sigma) :
    calculatePremium (JSNum.fin s) (JSNum.fin k) (JSNum.fin d) (some (JSNum.fin sigma))
        = JSNum.fin (specPremium s k d sigma) ∧
      calculatePremium (JSNum.fin s) (JSNum.fin k) (JSNum.fin d) none
        = JSNum.fin (specPremium s k d 0.30) :=
  ⟨calculatePremium_rep s k d sigma hs hk hd hsig,
    calculatePremium_rep s k d 0.30 hs hk hd (by norm_num)⟩

/-- Witness for C4: spot 22.50, strike 23.18, 30 days, volatility 0.30. -/
theorem calculatePremium_black_scholes_witness :
    ((0 : ℝ) < 22.50 ∧ (0 : ℝ) < 23.18 ∧ (0 : ℝ) < 30 ∧ (0 : ℝ) < 0.30) ∧
    (calculatePremium (JSNum.fin 22.50) (JSNum.fin 23.18) (JSNum.fin 30) (some (JSNum.fin 0.30))
        = JSNum.fin (specPremium 22.50 23.18 30 0.30) ∧
      calculatePremium (JSNum.fin 22.50) (JSNum.fin 23.18) (JSNum.fin 30) none
        = JSNum.fin (specPremium 22.50 23.18 30 0.30)) :=
  ⟨⟨by norm_num, by norm_num, by norm_num, by norm_num⟩,
    calculatePremium_black_scholes 22.50 23.18 30 0.30 (by norm_num) (by norm_num)
      (by norm_num) (by norm_num)⟩

/-! ### Non-negativity, zero days and invalid inputs -/

theorem not_lt_zero_of_fin {v : ℝ} (h : 0 ≤ v) : ¬ JSNum.lt (JSNum.fin v) (JSNum.fin 0) := by
  simp [JSNum.lt, isNaN, toEReal, h]

theorem not_lt_nan (x : JSNum) : ¬ JSNum.lt nan x := by
  simp [JSNum.lt, isNaN]

theorem not_le_nan (x : JSNum) : ¬ JSNum.le x nan := by
  simp [JSNum.le, isNaN]

theorem zero_mul_any (x : JSNum) :
    (JSNum.fin 0 * x).isZero ∨ (JSNum.fin 0 * x).isNaN := by
  rw [mul_def]
  unfold JSNum.mul
  cases x <;> simp [isNaN, isInf, JSNum.isZero, toReal, signedZero, signBit]
  split_ifs <;> simp [JSNum.isZero]

theorem getCurrentPrice_nil : getCurrentPrice [] = JSNum.fin 0 := rfl

/-- Counterexample to C3 as stated: at `daysToExpiry = 0` with spot = strike = 25 the
result is `NaN`, which is not `≥ 0`. -/
theorem premium_nonneg_fails_at_the_money :
    (0 : ℝ) < 25 ∧ (0 : ℝ) < 0.30 ∧ (0 : ℝ) ≤ 0 ∧
    ¬ JSNum.le (JSNum.fin 0)
      (calculatePremium (JSNum.fin 25) (JSNum.fin 25) (JSNum.fin 0) (some (JSNum.fin 0.30))) := by
  refine ⟨by norm_num, by norm_num, le_refl _, ?_⟩
  rw [calculatePremium_zero_days 25 25 0.30 (by norm_num) (by norm_num) (by norm_num),
    if_pos rfl]
  exact not_le_nan _

/-- Claim C3, amended.  For positive spot, strike and volatility and `daysToExpiry ≥ 0` the
result is never below zero; it is a finite number `≥ 0` whenever `daysToExpiry > 0` or
spot ≠ strike (with `daysToExpiry = 0` and spot = strike it is `NaN`). -/
theorem calculatePremium_nonneg (s k d sigma : ℝ) (hs : 0 < s) (hk : 0 < k)
    (hsig : 0 < sigma) (hd : 0 ≤ d) :
    (0 < d ∨ s ≠ k → ∃ v : ℝ, 0 ≤ v ∧
      calculatePremium (JSNum.fin s) (JSNum.fin k) (JSNum.fin d) (some (JSNum.fin sigma))
        = JSNum.fin v ∧
      JSNum.le (JSNum.fin 0)
        (calculatePremium (JSNum.fin s) (JSNum.fin k) (JSNum.fin d) (some (JSNum.fin sigma)))) ∧
    ¬ JSNum.lt
      (calculatePremium (JSNum.fin s) (JSNum.fin k) (JSNum.fin d) (some (JSNum.fin sigma)))
      (JSNum.fin 0) := by
  have hle : ∀ v : ℝ, 0 ≤ v → JSNum.le (JSNum.fin 0) (JSNum.fin v) := by
    intro v hv
    simp [JSNum.le, isNaN, toEReal, hv]
  rcases hd.lt_or_eq with hpos | hzero
  · have e := calculatePremium_rep s k d sigma hs hk hpos hsig
    have h0 : 0 ≤ specPremium s k d sigma := le_max_right _ _
    rw [e]
    exact ⟨fun _ => ⟨_, h0, rfl, hle _ h0⟩, not_lt_zero_of_fin h0⟩
  · subst hzero
    rw [calculatePremium_zero_days s k sigma hs hk hsig]
    by_cases h : s = k
    · rw [if_pos h]
      refine ⟨fun hc => ?_, not_lt_nan _⟩
      rcases hc with hc | hc
      · exact absurd hc (lt_irrefl _)
      · exact absurd h hc
    · rw [if_neg h]
      exact ⟨fun _ => ⟨_, le_max_right _ _, rfl, hle _ (le_max_right _ _)⟩,
        not_lt_zero_of_fin (le_max_right _ _)⟩

/-- Witness for C3 (amended): spot 22.50, strike 23.18, 30 days, volatility 0.30. -/
theorem calculatePremium_nonneg_witness :
    ((0 : ℝ) < 22.50 ∧ (0 : ℝ) < 23.18 ∧ (0 : ℝ) < 0.30 ∧ (0 : ℝ) ≤ 30) ∧
    ((0 < (30 : ℝ) ∨ (22.50 : ℝ) ≠ 23.18 → ∃ v : ℝ, 0 ≤ v ∧
      calculatePremium (JSNum.fin 22.50) (JSNum.fin 23.18) (JSNum.fin 30) (some (JSNum.fin 0.30))
        = JSNum.fin v ∧
      JSNum.le (JSNum.fin 0)
        (calculatePremium (JSNum.fin 22.50) (JSNum.fin 23.18) (JSNum.fin 30)
          (some (JSNum.fin 0.30)))) ∧
    ¬ JSNum.lt
      (calculatePremium (JSNum.fin 22.50) (JSNum.fin 23.18) (JSNum.fin 30) (some (JSNum.fin 0.30)))
      (JSNum.fin 0)) ∧
    (0 < (30 : ℝ) ∨ (22.50 : ℝ) ≠ 23.18) :=
  ⟨⟨by norm_num, by norm_num, by norm_num, by norm_num⟩,
    calculatePremium_nonneg 22.50 23.18 30 0.30 (by norm_num) (by norm_num) (by norm_num)
      (by norm_num),
    Or.inl (by norm_num)⟩

/-- Counterexample to C5 as stated: at the money (spot = strike = 25) with
`daysToExpiry = 0` the result is `NaN`, not `max(spot − strike, 0) = 0`. -/
theorem zero_days_at_the_money_is_nan :
    (0 : ℝ) < 25 ∧ (0 : ℝ) < 0.30 ∧
    calculatePremium (JSNum.fin 25) (JSNum.fin 25) (JSNum.fin 0) (some (JSNum.fin 0.30)) = nan ∧
    calculatePremium (JSNum.fin 25) (JSNum.fin 25) (JSNum.fin 0) (some (JSNum.fin 0.30))
      ≠ JSNum.fin (Max.max (25 - 25) 0) := by
  have e := calculatePremium_zero_days 25 25 0.30 (by norm_num) (by norm_num) (by norm_num)
  rw [if_pos rfl] at e
  refine ⟨by norm_num, by norm_num, e, ?_⟩
  rw [e]
  intro h
  cases h

/-- Claim C5, amended.  For positive spot, strike and volatility with spot ≠ strike,
`calculatePremium` with `daysToExpiry = 0` returns exactly `max(spot − strike, 0)`; with
spot = strike it returns `NaN`. -/
theorem calculatePremium_zero_days_intrinsic (s k sigma : ℝ) (hs : 0 < s) (hk : 0 < k)
    (hsig : 0 < sigma) :
    (s ≠ k →
      calculatePremium (JSNum.fin s) (JSNum.fin k) (JSNum.fin 0) (some (JSNum.fin sigma))
        = JSNum.fin (Max.max (s - k) 0)) ∧
    (s = k →
      calculatePremium (JSNum.fin s) (JSNum.fin k) (JSNum.fin 0) (some (JSNum.fin sigma))
        = nan) := by
  rw [calculatePremium_zero_days s k sigma hs hk hsig]
  exact ⟨fun h => by rw [if_neg h], fun h => by rw [if_pos h]⟩

/-- Witness for C5 (amended): spot 25, strike 24 gives 1; spot 24, strike 25 gives 0. -/
theorem calculatePremium_zero_days_intrinsic_witness :
    ((0 : ℝ) < 25 ∧ (0 : ℝ) < 24 ∧ (0 : ℝ) < 0.30 ∧ (25 : ℝ) ≠ 24) ∧
    calculatePremium (JSNum.fin 25) (JSNum.fin 24) (JSNum.fin 0) (some (JSNum.fin 0.30))
      = JSNum.fin 1 ∧
    calculatePremium (JSNum.fin 24) (JSNum.fin 25) (JSNum.fin 0) (some (JSNum.fin 0.30))
      = JSNum.fin 0 := by
  refine ⟨⟨by norm_num, by norm_num, by norm_num, by norm_num⟩, ?_, ?_⟩
  · rw [(calculatePremium_zero_days_intrinsic 25 24 0.30 (by norm_num) (by norm_num)
      (by norm_num)).1 (by norm_num)]
    congr 1
    norm_num
  · rw [(calculatePremium_zero_days_intrinsic 24 25 0.30 (by norm_num) (by norm_num)
      (by norm_num)).1 (by norm_num)]
    congr 1
    norm_num

/-- Counterexample to C6 as stated: with spot = 0 and strike = 0 (and 30 days, default
volatility) `calculatePremium` does not signal an error although spot ≤ 0. -/
theorem zero_spot_signals_no_error :
    ¬ ((∃ err, calculatePremiumOutcome (JSNum.fin 0) (JSNum.fin 0) (JSNum.fin 30) none
          = Except.error err) ↔
        ((0 : ℝ) ≤ 0 ∨ (0 : ℝ) ≤ 0 ∨ (0.30 : ℝ) ≤ 0)) := by
  intro h
  obtain ⟨err, he⟩ := h.mpr (Or.inl (le_refl _))
  unfold calculatePremiumOutcome at he
  cases he

/-- Claim C6, amended.  `calculatePremium` never signals an error: for every input it
returns a number.  With spot = 0 and strike = 0 that number is `NaN`, and this is what both
routes compute, without an error, when `getCurrentPrice` falls back to 0 for lack of
price data. -/
theorem calculatePremium_never_signals (fuel : Nat) (tz : Int) (now now2 : JSDate)
    (sharesOwned premiumPct totalIncome : JSNum) (hfuel : 21 ≤ fuel) :
    (∀ S K d v, ∃ x, calculatePremiumOutcome S K d v = Except.ok x) ∧
    (∀ d v, calculatePremiumOutcome (JSNum.fin 0) (JSNum.fin 0) d v = Except.ok nan) ∧
    (∃ r, apiStatus fuel tz now now2 [] sharesOwned premiumPct totalIncome = some r ∧
      r.currentPrice = JSNum.fin 0 ∧ r.estimatedPremium = nan) ∧
    (∃ c, apiCalls fuel tz now now2 [] sharesOwned premiumPct = some c ∧
      c.current_price = JSNum.fin 0 ∧ c.premium = nan) := by
  obtain ⟨e, he, _⟩ := expiry_after_now tz now fuel hfuel
  refine ⟨fun S K d v => ⟨_, rfl⟩, fun d v => ?_, ?_, ?_⟩
  · unfold calculatePremiumOutcome
    rw [calculatePremium_zero_spot (JSNum.fin 0) d v
      (Or.inl (show (JSNum.fin 0).isZero from rfl))]
  · unfold apiStatus
    simp only [he, getCurrentPrice_nil]
    exact ⟨_, rfl, rfl, calculatePremium_zero_spot _ _ _ (zero_mul_any _)⟩
  · unfold apiCalls
    simp only [he, getCurrentPrice_nil]
    exact ⟨_, rfl, rfl, calculatePremium_zero_spot _ _ _ (zero_mul_any _)⟩

/-- Witness for C6 (amended): no price data, 100 shares, 3 percent, clock at
2024-01-10T00:00Z. -/
theorem calculatePremium_never_signals_witness :
    21 ≤ 21 ∧
    ((∀ S K d v, ∃ x, calculatePremiumOutcome S K d v = Except.ok x) ∧
    (∀ d v, calculatePremiumOutcome (JSNum.fin 0) (JSNum.fin 0) d v = Except.ok nan) ∧
    (∃ r, apiStatus 21 0 (newDate 0 2024 0 10) (newDate 0 2024 0 10) [] (JSNum.fin 100)
        (JSNum.fin 3) (JSNum.fin 0) = some r ∧
      r.currentPrice = JSNum.fin 0 ∧ r.estimatedPremium = nan) ∧
    (∃ c, apiCalls 21 0 (newDate 0 2024 0 10) (newDate 0 2024 0 10) [] (JSNum.fin 100)
        (JSNum.fin 3) = some c ∧
      c.current_price = JSNum.fin 0 ∧ c.premium = nan)) :=
  ⟨by decide, calculatePremium_never_signals 21 0 (newDate 0 2024 0 10) (newDate 0 2024 0 10)
    (JSNum.fin 100) (JSNum.fin 3) (JSNum.fin 0) (by decide)⟩

/-! ### The routes -/

/-- Claim C7. What the two routes compose: `strikePrice = currentPrice·(1 + premiumPct/100)`,
`estimatedPremium = calculatePremium(currentPrice, strikePrice, daysToExpiry)` with the
default volatility 0.30, `estimatedIncome = estimatedPremium·sharesOwned` and
`annualizedReturn = totalIncome / (currentPrice·sharesOwned) · 12`; the row stored by
`POST /api/calls` holds the same strike, premium and income.  On finite inputs the strike,
the income and the annualized return are the real numbers these formulas denote. -/
theorem status_composition (fuel : Nat) (tz : Int) (now now2 : JSDate) (closes : List JSNum)
    (sharesOwned premiumPct totalIncome : JSNum) (hfuel : 21 ≤ fuel) :
    ∃ r c, apiStatus fuel tz now now2 closes sharesOwned premiumPct totalIncome = some r ∧
      apiCalls fuel tz now now2 closes sharesOwned premiumPct = some c ∧
      r.currentPrice = getCurrentPrice closes ∧
      r.strikePrice = r.currentPrice * (JSNum.fin 1 + premiumPct / JSNum.fin 100) ∧
      r.estimatedPremium
        = calculatePremium r.currentPrice r.strikePrice r.daysToExpiry (some (JSNum.fin 0.30)) ∧
      r.estimatedIncome = r.estimatedPremium * sharesOwned ∧
      r.annualizedReturn = totalIncome / (r.currentPrice * sharesOwned) * JSNum.fin 12 ∧
      c.current_price = r.currentPrice ∧
      c.strike_price = r.strikePrice ∧ c.premium = r.estimatedPremium ∧
      c.income = r.estimatedIncome ∧
      (∀ cp p sh t : ℝ, r.currentPrice = JSNum.fin cp → premiumPct = JSNum.fin p →
        sharesOwned = JSNum.fin sh → totalIncome = JSNum.fin t → cp * sh ≠ 0 →
        Rep r.strikePrice (cp * (1 + p / 100)) ∧
        Rep r.annualizedReturn (t / (cp * sh) * 12) ∧
        ∀ v : ℝ, Rep r.estimatedPremium v → Rep r.estimatedIncome (v * sh)) := by
  obtain ⟨e, he, _⟩ := expiry_after_now tz now fuel hfuel
  unfold apiStatus apiCalls
  simp only [he]
  refine ⟨_, _, rfl, rfl, rfl, rfl, rfl, rfl, rfl, rfl, rfl, rfl, rfl, ?_⟩
  intro cp p sh t hcp hp hsh ht hne
  simp only at hcp ⊢
  rw [hcp, hp, hsh, ht]
  refine ⟨?_, ?_, ?_⟩
  · exact (Rep.fin cp).mul ((Rep.fin 1).add ((Rep.fin p).div (Rep.fin 100) (by norm_num)))
  · exact ((Rep.fin t).div ((Rep.fin cp).mul (Rep.fin sh)) hne).mul (Rep.fin 12)
  · intro v hv
    exact hv.mul (Rep.fin sh)

/-- Witness for C7: last close 22.50, 100 shares, 3 percent, no closed income, clock
at 2024-01-10T00:00Z. -/
theorem status_composition_witness :
    21 ≤ 21 ∧
    ∃ r c, apiStatus 21 0 (newDate 0 2024 0 10) (newDate 0 2024 0 10) [JSNum.fin 22.50]
        (JSNum.fin 100) (JSNum.fin 3) (JSNum.fin 0) = some r ∧
      apiCalls 21 0 (newDate 0 2024 0 10) (newDate 0 2024 0 10) [JSNum.fin 22.50]
        (JSNum.fin 100) (JSNum.fin 3) = some c ∧
      r.currentPrice = getCurrentPrice [JSNum.fin 22.50] ∧
      r.strikePrice = r.currentPrice * (JSNum.fin 1 + JSNum.fin 3 / JSNum.fin 100) ∧
      r.estimatedPremium
        = calculatePremium r.currentPrice r.strikePrice r.daysToExpiry (some (JSNum.fin 0.30)) ∧
      r.estimatedIncome = r.estimatedPremium * JSNum.fin 100 ∧
      r.annualizedReturn = JSNum.fin 0 / (r.currentPrice * JSNum.fin 100) * JSNum.fin 12 ∧
      c.current_price = r.currentPrice ∧
      c.strike_price = r.strikePrice ∧ c.premium = r.estimatedPremium ∧
      c.income = r.estimatedIncome ∧
      (∀ cp p sh t : ℝ, r.currentPrice = JSNum.fin cp → JSNum.fin 3 = JSNum.fin p →
        JSNum.fin 100 = JSNum.fin sh → JSNum.fin 0 = JSNum.fin t → cp * sh ≠ 0 →
        Rep r.strikePrice (cp * (1 + p / 100)) ∧
        Rep r.annualizedReturn (t / (cp * sh) * 12) ∧
        ∀ v : ℝ, Rep r.estimatedPremium v → Rep r.estimatedIncome (v * sh)) :=
  ⟨by decide, status_composition 21 0 (newDate 0 2024 0 10) (newDate 0 2024 0 10)
    [JSNum.fin 22.50] (JSNum.fin 100) (JSNum.fin 3) (JSNum.fin 0) (by decide)⟩

/-- Claim C10, at a server one hour east of UTC (`tz = 3600000`) with the clock at local
midnight of 2024-01-10: the date returned is Friday 2024-02-16 in local time, but the date
part of its `toISOString()` is 2024-02-15, a Thursday, and that is the `nextExpiry` of
`/api/status` and the `strike_date` and `expires` of `POST /api/calls`. -/
theorem iso_date_is_thursday_east_of_utc :
    ∃ e : JSDate,
      getNextMonthlyExpiry 21 3600000 (newDate 3600000 2024 0 10) = some e ∧
      (e.getFullYear 3600000, e.getMonth 3600000 + 1, e.getDate 3600000) = (2024, 2, 16) ∧
      e.getDay 3600000 = 5 ∧
      e.isoDate = (2024, 2, 15) ∧
      WeekDay e.tv = 4 ∧
      (apiStatus 21 3600000 (newDate 3600000 2024 0 10) (newDate 3600000 2024 0 10)
        [JSNum.fin 22.50] (JSNum.fin 100) (JSNum.fin 3) (JSNum.fin 0)).map
          (fun r => r.nextExpiry) = some (2024, 2, 15) ∧
      (apiCalls 21 3600000 (newDate 3600000 2024 0 10) (newDate 3600000 2024 0 10)
        [JSNum.fin 22.50] (JSNum.fin 100) (JSNum.fin 3)).map
          (fun c => (c.strike_date, c.expires)) = some ((2024, 2, 15), (2024, 2, 15)) := by
  have he : getNextMonthlyExpiry 21 3600000 (newDate 3600000 2024 0 10)
      = some (newDate 3600000 2024 1 16) := by decide
  refine ⟨newDate 3600000 2024 1 16, he, by decide, by decide, by decide, by decide, ?_, ?_⟩
  · unfold apiStatus
    simp only [he, Option.map_some']
    exact congrArg some (by decide)
  · unfold apiCalls
    simp only [he, Option.map_some']
    exact congrArg some (by decide)

end SLVTracker
